import Mathlib

/-!
Verification of the CPT file-format conversion core (GEF <-> BRO/IMBRO XML)
of the `cpt-interpreter` repository, as a shallow embedding in Lean 4.

Conventions of the embedding:
* Python floats are modelled as rationals (`Rat`).  The primitives
  `float(s)` (string to float parsing) and `"{:.3f}".format(x)` (float
  formatting) of the Python runtime are modelled as parameters
  (`pyFloat : List Char → Rat`, `fmt : Rat → String`) of the functions that
  use them; the theorems are universally quantified over them.
* Python strings that get split by separators are modelled as `List Char`;
  the separators appearing in BRO XML encoding declarations are single
  characters, so splitting is `List.splitOn`.  Strings that are only
  compared for equality stay `String`.
* Python exceptions are modelled with an `Except PyError` result.
* `sorted(xs, key=k)` (a stable sort) is modelled by `List.insertionSort`
  on the relation `k a ≤ k b`, which is the same stable sort: a stable
  sort's output is uniquely determined by the comparison and input order.
* `dict` values whose insertion order is relevant (`OrderedDict`) are
  modelled as association lists (`List (String × _)`).
-/

/-- Exceptions that can escape the conversion functions.  The first five
constructors model exception classes actually raised by the code
(`viktor.UserException` and Python built-ins).  The last two constructors
name the error classes that the specification document claims exist; the
code never produces them, and they let us state those claims. -/
inductive PyError where
  | userException (msg : String)
  | indexError
  | keyError
  | typeError
  | zeroDivisionError
  | unknownColumnError
  | unsupportedConversionError
deriving DecidableEq, Repr

deriving instance DecidableEq for Except

/-- Python `int(x)` on a float: truncation toward zero, modelled on `Rat`. -/
def pyInt (q : Rat) : Int := q.num.tdiv q.den

/-- Python `xs[i]` for a non-negative index: the element, or `IndexError`. -/
def pyIdx {α : Type} (xs : List α) (i : Nat) : Except PyError α :=
  match xs[i]? with
  | some a => .ok a
  | none => .error .indexError

/-! ## Code Tables (src/app/cpt_file/cpt/file_conversion.py, lines 107-140)

Each table is a Python `defaultdict(lambda: '-', {...})`: lookup of a key
that is not listed returns the fallback code `"-"`. -/

/-- Vertical-datum code table (`zid_codes`). -/
def zid_codes (key : String) : String :=
  if key = "Low Low Water Spring" then "00001"
  else if key = "NAP" then "31000"
  else if key = "Ostend Level" then "32000"
  else if key = "TAW" then "32001"
  else if key = "Normal Null" then "49000"
  else "-"

/-- The keys explicitly listed in `zid_codes`. -/
def zid_known_keys : List String :=
  ["Low Low Water Spring", "NAP", "Ostend Level", "TAW", "Normal Null"]

/-- Stop-criterion code table (`stop_criteria`). -/
def stop_criteria (key : String) : String :=
  if key = "wegdrukkracht" then "1"
  else if key = "obstakel" then "6"
  else if key = "storing" then "8"
  else if key = "einddiepte" then "0"
  else if key = "bezwijkrisico" then "7"
  else "-"

/-- The keys explicitly listed in `stop_criteria`. -/
def stop_known_keys : List String :=
  ["wegdrukkracht", "obstakel", "storing", "einddiepte", "bezwijkrisico"]

/-- CPT-method code table (`cpt_method`). -/
def cpt_method (key : String) : String :=
  if key = "elektrischContinu" then "4"
  else if key = "elektrisch" then "0"
  else "-"

/-- The keys explicitly listed in `cpt_method`. -/
def cpt_method_known_keys : List String := ["elektrischContinu", "elektrisch"]

/-- Coordinate-system code table (`xyid_codes`). -/
def xyid_codes (key : String) : String :=
  if key = "Geographic Coordinate System" then "00001"
  else if key = "SPCS" then "01000"
  else if key = "RD" then "31000"
  else if key = "RDNAPTRANS2008" then "31000"
  else if key = "UTM-3N" then "31001"
  else if key = "UTM-9N" then "31002"
  else if key = "Belgian Bessel" then "32000"
  else if key = "Gauss-Krüger" then "49000"
  else "-"

/-- The keys explicitly listed in `xyid_codes`. -/
def xyid_known_keys : List String :=
  ["Geographic Coordinate System", "SPCS", "RD", "RDNAPTRANS2008",
   "UTM-3N", "UTM-9N", "Belgian Bessel", "Gauss-Krüger"]

/-! ## Column Registry (`databloc_cols_def`, file_conversion.py lines 7-104) -/

/-- One entry of the column registry: numeric id, GEF description, unit. -/
structure ColDef where
  id : Nat
  description : String
  units : String
deriving DecidableEq, Repr

/-- The fixed catalogue of known measurement channels. -/
def databloc_cols_def : List ColDef :=
  [⟨1, "penetration length", "m"⟩,
   ⟨2, "cone resistance", "MPa"⟩,
   ⟨3, "local friction", "MPa"⟩,
   ⟨4, "friction ratio", "-"⟩,
   ⟨5, "pore pressure u1", "MPa"⟩,
   ⟨6, "pore pressure u2", "MPa"⟩,
   ⟨7, "pore pressure u3", "MPa"⟩,
   ⟨8, "inclination resultant", "degrees"⟩,
   ⟨9, "inclination ns", "degrees"⟩,
   ⟨10, "inclination ew", "degrees"⟩,
   ⟨11, "depth", "m"⟩,
   ⟨12, "elapsed time", "s"⟩,
   ⟨13, "corrected cone resistance", "MPa"⟩,
   ⟨14, "net cone resistance", "MPa"⟩,
   ⟨15, "pore ratio", "-"⟩,
   ⟨21, "inclination x", "degrees"⟩,
   ⟨22, "inclination y", "degrees"⟩,
   ⟨23, "electrical conductivity", "S/m"⟩,
   ⟨31, "magnetic field strength x", "nT"⟩,
   ⟨32, "magnetic field strength y", "nT"⟩,
   ⟨33, "magnetic field strength z", "nT"⟩,
   ⟨34, "magnetic field strength total", "nT"⟩,
   ⟨35, "magnetic inclination", "degrees"⟩,
   ⟨36, "magnetic declination", "degrees"⟩]

/-- Auxiliary character step of `undo_camelcase`: the regex
`re.sub("([a-z])([A-Z])", "\g<1> \g<2>", s)` inserts a space between a
lowercase letter directly followed by an uppercase letter.  Matches cannot
overlap (the second character of a match is uppercase, so it can never
start a new match), hence this simple scan is the regex's behaviour. -/
def insertCamelSpaces : List Char → List Char
  | a :: b :: rest =>
      if a.isLower ∧ b.isUpper then a :: ' ' :: insertCamelSpaces (b :: rest)
      else a :: insertCamelSpaces (b :: rest)
  | l => l

/-- `undo_camelcase` (file_conversion.py lines 243-244): de-camel-case then
lowercase. -/
def undo_camelcase (s : String) : String :=
  ((insertCamelSpaces s.toList).map Char.toLower).asString

/-! ## Shared helpers -/

/-- Monadic map over a list in the `Except` monad, modelling a Python loop
that applies `f` to the elements in order and lets the first raised
exception abort the whole computation. -/
def exceptMap {α β : Type} (f : α → Except PyError β) : List α → Except PyError (List β)
  | [] => .ok []
  | a :: as => do
      let b ← f a
      let bs ← exceptMap f as
      pure (b :: bs)

/-- Python `sorted(xs, key=k)` for a numeric key: a stable ascending sort.
`List.insertionSort` on `k a ≤ k b` is a stable sort for the same
comparison, hence produces the identical output list. -/
def pySortedByKey {α : Type} (k : α → Rat) (l : List α) : List α :=
  List.insertionSort (fun a b => k a ≤ k b) l

/-! ## XML→GEF mapper (src/app/cpt_file/cpt/imbro_file.py, lines 160-192)

`IMBROFile.convert_to_gef_file_content` consists of a header block, a meta
block (`COLUMNINFO`/`COLUMN`/`LASTSCAN`) and the numeric data block.  The
embedding below covers the meta and data parts (`BUILD META` and
`BUILD DATA`, lines 160-192), which is what the row/column claims are
about; the header dictionary built in lines 69-158 only formats fields
that are independent of rows and columns. -/

/-- The token and block separators: read from the document's
`TextEncoding` element when that element is truthy, defaulting to
`(',', ';')` (imbro_file.py lines 173-177).  BRO XML separators are single
characters. -/
def encSeps (encoding : Option (Char × Char)) : Char × Char :=
  match encoding with
  | some tb => tb
  | none => (',', ';')

/-- The parsed numeric block: `values` split on the block separator, the
last (empty) piece dropped, each row split on the token separator
(imbro_file.py lines 180-182). -/
def gefDataRows (encoding : Option (Char × Char)) (values : List Char) :
    List (List (List Char)) :=
  ((values.splitOn (encSeps encoding).2).dropLast).map
    (fun r => r.splitOn (encSeps encoding).1)

/-- The rows re-sorted ascending by `float(row[0])` (imbro_file.py line
183).  `pyFloat` models Python's `float` string parsing; rows produced by
`split` are never empty lists, so `row[0]` is the head. -/
def gefSortedRows (pyFloat : List Char → Rat) (encoding : Option (Char × Char))
    (values : List Char) : List (List (List Char)) :=
  pySortedByKey (fun row => pyFloat (row.headD [])) (gefDataRows encoding values)

/-- The `BUILD META` loop (imbro_file.py lines 161-170): walk the
`parameters` list with its index `i`; a `True`-flagged parameter
contributes its index to `columns` and its Column Registry entry (looked
up by de-camel-cased description, `[... ][0]`) with `colnum =
len(columns)` to `COLUMNINFO`.  A flagged parameter with no registry match
makes the `[0]` indexing of the empty filtered list raise `IndexError`. -/
def buildColumns : List (String × Bool) → Nat → List Nat → List (ColDef × Nat) →
    Except PyError (List Nat × List (ColDef × Nat))
  | [], _, cols, info => .ok (cols, info)
  | (tag, value) :: rest, i, cols, info =>
    if value then
      match (databloc_cols_def.filter
              (fun w => w.description = undo_camelcase tag))[0]? with
      | some w => buildColumns rest (i + 1) (cols ++ [i])
          (info ++ [(w, (cols ++ [i]).length)])
      | none => .error .indexError
    else buildColumns rest (i + 1) cols info

/-- One emitted data line (imbro_file.py line 186): the selected columns of
a row joined by `';'`, then the terminator `;!`.  (In the file content each
line is additionally followed by a newline.)  `row[column_idx]` raises
`IndexError` when the row is too short. -/
def gefDataLine (columns : List Nat) (row : List (List Char)) :
    Except PyError (List Char) :=
  match exceptMap (fun ci => pyIdx row ci) columns with
  | .error e => .error e
  | .ok fields => .ok (List.intercalate [';'] fields ++ [';', '!'])

/-- Result of the meta/data part of `convert_to_gef_file_content`:
the `#COLUMN` value, the `#COLUMNINFO` entries (registry entry, colnum),
the `#LASTSCAN` value and the emitted data lines. -/
structure GefDataResult where
  column : Nat
  columninfo : List (ColDef × Nat)
  lastscan : Nat
  lines : List (List Char)
deriving DecidableEq, Repr

/-- The meta and data blocks of `IMBROFile.convert_to_gef_file_content`
(imbro_file.py lines 160-192): build the column selection from
`parameters`, split and re-sort the numeric block, emit one line per row,
and record `COLUMN = len(columns)` and `LASTSCAN = len(data_rows)`. -/
def convert_to_gef_data (pyFloat : List Char → Rat) (params : List (String × Bool))
    (encoding : Option (Char × Char)) (values : List Char) :
    Except PyError GefDataResult :=
  match buildColumns params 0 [] [] with
  | .error e => .error e
  | .ok (columns, info) =>
      match exceptMap (gefDataLine columns) (gefSortedRows pyFloat encoding values) with
      | .error e => .error e
      | .ok lines => .ok (GefDataResult.mk columns.length info
          (gefSortedRows pyFloat encoding values).length lines)

/-! ## XML→CPT record parsing
(src/app/cpt_file/cpt/file_conversion.py, lines 142-240)

`convert_xml_dict_to_cpt_dict` consumes the structurally parsed XML
document.  The embedding represents the document by the fields the
function actually reads (`XmlCpt`); a document in which one of them is
missing makes the `munch` attribute access raise before any of the logic
modelled here runs. -/

/-- The fields of the parsed XML document read by
`convert_xml_dict_to_cpt_dict`.  String-valued fields that are fed to
`float()` or split on characters are `List Char`.  `topLevelKeys` models
`xml_data.keys()`, which the code (lines 205-219) uses to guard the five
optional cone-penetrometer quotient/area headers.  `encoding` is the
`(tokenSeparator, blockSeparator)` pair when the `TextEncoding` element is
truthy. -/
structure XmlCpt where
  broId : String
  researchReportDate : String
  verticalDatum : String
  localVerticalReferencePoint : String
  conePenetrometerType : String
  offset : List Char
  coneSurfaceQuotient : List Char
  coneToFrictionSleeveDistance : List Char
  coneSurfaceArea : List Char
  frictionSleeveSurfaceArea : List Char
  predrilledDepth : String
  finalDepth : List Char
  pos : List Char
  parameters : List (String × Bool)
  encoding : Option (Char × Char)
  values : List Char
  topLevelKeys : List String
deriving DecidableEq, Repr

/-- The column index of each internal channel key, `None` when the channel
key was never assigned.  Models the `mapping` dict of lines 160-167. -/
structure ChannelMapping where
  Rf : Option Nat
  fs : Option Nat
  qc : Option Nat
  elevation : Option Nat
  corrected_depth : Option Nat
deriving DecidableEq, Repr

/-- One step of the mapping construction (lines 161-167): parameter `i`
with tag `tag` and flag `value` assigns `i` to every internal key whose
`GEF_XML_MAPPING` label equals `tag`, when `value is True`.  Both
`elevation` and `corrected_depth` are labelled `depth` (lines 142-148). -/
def stepMapping (m : ChannelMapping) (i : Nat) (tag : String) (value : Bool) :
    ChannelMapping :=
  { Rf := if tag = "frictionRatio" ∧ value then some i else m.Rf,
    fs := if tag = "localFriction" ∧ value then some i else m.fs,
    qc := if tag = "coneResistance" ∧ value then some i else m.qc,
    elevation := if tag = "depth" ∧ value then some i else m.elevation,
    corrected_depth := if tag = "depth" ∧ value then some i else m.corrected_depth }

/-- The `enumerate(parameters)` fold of lines 161-167. -/
def buildMappingAux : List (String × Bool) → Nat → ChannelMapping → ChannelMapping
  | [], _, m => m
  | (tag, v) :: rest, i, m => buildMappingAux rest (i + 1) (stepMapping m i tag v)

/-- The channel mapping of a document. -/
def xmlMapping (x : XmlCpt) : ChannelMapping :=
  buildMappingAux x.parameters 0 ⟨none, none, none, none, none⟩

/-- Looks a channel key up in the mapping (the keys of the `mapping`
dict). -/
def ChannelMapping.find (m : ChannelMapping) : String → Option Nat
  | "Rf" => m.Rf
  | "fs" => m.fs
  | "qc" => m.qc
  | "elevation" => m.elevation
  | "corrected_depth" => m.corrected_depth
  | _ => none

/-- The split numeric block of the document (lines 169-178): `values`
split on the block separator, the final piece dropped, each row split on
the token separator. -/
def xmlDataRows (x : XmlCpt) : List (List (List Char)) :=
  ((x.values.splitOn (encSeps x.encoding).2).dropLast).map
    (fun r => r.splitOn (encSeps x.encoding).1)

/-- The rows sorted by `float(row[mapping['elevation']])` (line 182).
When `elevation` is unmapped the sort is never reached with a non-empty
row list (the `KeyError` path), so the value returned here for that case
is immaterial; it is defined as the unsorted empty list. -/
def xmlSortedRows (pyFloat : List Char → Rat) (x : XmlCpt) :
    List (List (List Char)) :=
  match (xmlMapping x).elevation with
  | none => []
  | some col => pySortedByKey (fun row => pyFloat (row.getD col [])) (xmlDataRows x)

/-- The per-field scaling of lines 192-199: elevation becomes
`elevation_offset - int(value * 1000)`, corrected depth `int(value *
1e3)`, friction ratio `value / 100`, and the remaining channels keep the
raw value. -/
def transformValue (elevation_offset : Int) (key : String) (v : Rat) : Rat :=
  if key = "elevation" then (elevation_offset : Rat) - (pyInt (v * 1000) : Rat)
  else if key = "corrected_depth" then (pyInt (v * 1000) : Rat)
  else if key = "Rf" then v / 100
  else v

/-- One appended sample (lines 186-200): read the row's field at the
channel's column (`IndexError` when the row is too short), parse it, store
`None` when the parsed value equals `float(-999999)`, otherwise the scaled
value. -/
def channelValue (pyFloat : List Char → Rat) (elevation_offset : Int)
    (key : String) (col : Nat) (row : List (List Char)) :
    Except PyError (Option Rat) :=
  match pyIdx row col with
  | .error e => .error e
  | .ok fld =>
      if pyFloat fld = -999999 then .ok none
      else .ok (some (transformValue elevation_offset key (pyFloat fld)))

/-- One measurement channel of lines 186-200.  The Python loop is
row-major over `mapping.items()`; each channel key appends only to its own
list, so the per-key traversal below builds the same lists, and a failing
row yields the same `.indexError` value either way.  An unmapped key keeps
its initial empty list. -/
def buildChannel (pyFloat : List Char → Rat) (elevation_offset : Int)
    (key : String) (colOpt : Option Nat) (rows : List (List (List Char))) :
    Except PyError (List (Option Rat)) :=
  match colOpt with
  | none => .ok []
  | some col => exceptMap (channelValue pyFloat elevation_offset key col) rows

/-- The `measurement_data` dictionary: one sample list per internal
channel key. -/
structure MeasurementData where
  Rf : List (Option Rat)
  fs : List (Option Rat)
  qc : List (Option Rat)
  elevation : List (Option Rat)
  corrected_depth : List (Option Rat)
deriving DecidableEq, Repr

/-- Looks a channel key up in `measurement_data`. -/
def MeasurementData.channel (md : MeasurementData) : String → List (Option Rat)
  | "Rf" => md.Rf
  | "fs" => md.fs
  | "qc" => md.qc
  | "elevation" => md.elevation
  | "corrected_depth" => md.corrected_depth
  | _ => []

/-- The `headers` dictionary of the returned CPT record (lines 221-238). -/
structure CptHeaders where
  name : String
  gef_file_date : String
  height_system : String
  fixed_horizontal_level : String
  cone_type : String
  cone_tip_area : Option Rat
  friction_sleeve_area : Option Rat
  surface_area_quotient_tip : Option Rat
  surface_area_quotient_friction_sleeve : Option Rat
  distance_cone_to_centre_friction_sleeve : Option Rat
  excavation_depth : String
  corrected_depth : Rat
  x_y_coordinates : List Rat
  ground_level_wrt_reference_m : Rat
  ground_level_wrt_reference : Rat
deriving DecidableEq, Repr

/-- The derived friction ratio of lines 202-203: `fs / qc` over
`zip(qc, fs)`.  A `None` operand raises `TypeError`, division by a zero
cone resistance raises `ZeroDivisionError`. -/
def deriveRf (qcL fsL : List (Option Rat)) : Except PyError (List (Option Rat)) :=
  exceptMap
    (fun qf : Option Rat × Option Rat =>
      match qf with
      | (some q, some f) =>
          if q = 0 then .error .zeroDivisionError else .ok (some (f / q))
      | _ => .error .typeError)
    (qcL.zip fsL)

/-- The headers block (lines 205-238).  The five optional cone-penetrometer
headers are guarded by `'<key>' in xml_data.keys()` — a membership test on
the top level of the document, not on the `conePenetrometer` element — and
the `frictionSleeveSurfaceQuotient` header reads the `coneSurfaceQuotient`
field (source lines 208-209). -/
def buildCptHeaders (pyFloat : List Char → Rat) (x : XmlCpt) : CptHeaders :=
  { name := x.broId,
    gef_file_date := x.researchReportDate,
    height_system := x.verticalDatum,
    fixed_horizontal_level := x.localVerticalReferencePoint,
    cone_type := x.conePenetrometerType,
    cone_tip_area :=
      if x.topLevelKeys.contains "coneSurfaceArea"
      then some (pyFloat x.coneSurfaceArea) else none,
    friction_sleeve_area :=
      if x.topLevelKeys.contains "frictionSleeveSurfaceArea"
      then some (pyFloat x.frictionSleeveSurfaceArea) else none,
    surface_area_quotient_tip :=
      if x.topLevelKeys.contains "coneSurfaceQuotient"
      then some (pyFloat x.coneSurfaceQuotient) else none,
    surface_area_quotient_friction_sleeve :=
      if x.topLevelKeys.contains "frictionSleeveSurfaceQuotient"
      then some (pyFloat x.coneSurfaceQuotient) else none,
    distance_cone_to_centre_friction_sleeve :=
      if x.topLevelKeys.contains "coneToFrictionSleeveDistance"
      then some (pyFloat x.coneToFrictionSleeveDistance) else none,
    excavation_depth := x.predrilledDepth,
    corrected_depth := pyFloat x.finalDepth * 1000,
    x_y_coordinates := (x.pos.splitOn ' ').map pyFloat,
    ground_level_wrt_reference_m := pyFloat x.offset,
    ground_level_wrt_reference := pyFloat x.offset * 1000 }

/-- The measurement loop and everything after it (lines 186-240), given
the sorted rows. -/
def buildCptRest (pyFloat : List Char → Rat) (x : XmlCpt)
    (sorted_data : List (List (List Char))) :
    Except PyError (CptHeaders × MeasurementData) :=
  match buildChannel pyFloat (pyInt (pyFloat x.offset * 1000)) "Rf"
      (xmlMapping x).Rf sorted_data with
  | .error e => .error e
  | .ok rfL =>
    match buildChannel pyFloat (pyInt (pyFloat x.offset * 1000)) "fs"
        (xmlMapping x).fs sorted_data with
    | .error e => .error e
    | .ok fsL =>
      match buildChannel pyFloat (pyInt (pyFloat x.offset * 1000)) "qc"
          (xmlMapping x).qc sorted_data with
      | .error e => .error e
      | .ok qcL =>
        match buildChannel pyFloat (pyInt (pyFloat x.offset * 1000)) "elevation"
            (xmlMapping x).elevation sorted_data with
        | .error e => .error e
        | .ok elL =>
          match buildChannel pyFloat (pyInt (pyFloat x.offset * 1000))
              "corrected_depth" (xmlMapping x).corrected_depth sorted_data with
          | .error e => .error e
          | .ok cdL =>
            match (if rfL = [] then deriveRf qcL fsL else .ok rfL) with
            | .error e => .error e
            | .ok rfL2 =>
                .ok (buildCptHeaders pyFloat x,
                     MeasurementData.mk rfL2 fsL qcL elL cdL)

/-- `convert_xml_dict_to_cpt_dict` (file_conversion.py lines 151-240).
The sort of line 182 applies its key function to the rows in order:
with a non-empty row list and no `elevation` mapping the first key
application raises `KeyError`, which line 184 turns into the
`UserException`; with an empty row list the key function is never called.
A row shorter than the elevation column makes `float(x[col])` raise
`IndexError` (not caught). -/
def convert_xml_dict_to_cpt_dict (pyFloat : List Char → Rat) (x : XmlCpt) :
    Except PyError (CptHeaders × MeasurementData) :=
  match xmlDataRows x, (xmlMapping x).elevation with
  | [], _ => buildCptRest pyFloat x []
  | _ :: _, none => .error (.userException "Missing \"elevation\" in XML data")
  | rows@(_ :: _), some col =>
      match exceptMap (fun row => pyIdx row col) rows with
      | .error e => .error e
      | .ok _ => buildCptRest pyFloat x (xmlSortedRows pyFloat x)

/-! ## GEF→XML mapper (src/app/cpt_file/cpt/gef_file.py)

`GEFFile.convert_to_imbro_file_content` starts from the CPT record
returned by the external GEF parser (`self.parse(...)`), whose
`measurement_data` dictionary maps channel keys to sample lists; a sample
is a float or `None`.  The embedding models that dictionary as an
association list. -/

/-- A parsed CPT record's `measurement_data`: channel key to sample
list. -/
def GefMeasurementData : Type := List (String × List (Option Rat))

/-- The two header fields of the parsed record used by the numeric block
(gef_file.py lines 91-92). -/
structure GefHeadersUsed where
  depth : Rat
  corrected_depth : Rat
deriving DecidableEq, Repr

/-- `_yes_no` (gef_file.py lines 19-20): `'ja'` when the key is present in
`measurement_data.keys()`, else `'nee'`.  Presence of the key is the only
test; the sample list's contents are not inspected. -/
def yes_no (key : String) (md : GefMeasurementData) : String :=
  if (md.map Prod.fst).contains key then "ja" else "nee"

/-- The `parameters` block of the produced data object (gef_file.py lines
55-62), an ordered dictionary of parameter name to `'ja'`/`'nee'`: `depth`
and `penetrationLength` are hard-coded `'ja'`, the remaining four use
`_yes_no` on their channel key. -/
def gefParameters (md : GefMeasurementData) : List (String × String) :=
  [("depth", "ja"),
   ("penetrationLength", "ja"),
   ("inclinationResultant", yes_no "inclination" md),
   ("localFriction", yes_no "fs" md),
   ("frictionRatio", yes_no "Rf" md),
   ("coneResistance", yes_no "qc" md)]

/-- `np.linspace(0, d, n)` at index `j`: `n` evenly spaced points from `0`
to `d` inclusive (a single `0.0` when `n = 1`, empty when `n = 0`). -/
def np_linspace (d : Rat) (n j : Nat) : Rat :=
  if n ≤ 1 then 0 else d * j / ((n : Rat) - 1)

/-- The friction-ratio rescaling of gef_file.py line 100:
`Rf * 100 if Rf else Rf` — `None` and `0.0` are falsy and kept as-is,
anything else is scaled to percent. -/
def rf_scale : Option Rat → Option Rat
  | none => none
  | some v => if v = 0 then some v else some (v * 100)

/-- Sample `j` of the channel stored under `key`, as it sits in the
`values` matrix: `NaN` (modelled `none`) when the channel is absent,
otherwise the channel's sample (a `None` sample was cast to `NaN` by the
numpy float assignment). -/
def chanCell (md : GefMeasurementData) (key : String) (j : Nat) : Option Rat :=
  match List.lookup key md with
  | none => none
  | some l => match l[j]? with
    | some v => v
    | none => none

/-- Entry `(k, j)` of the 25-row `values` matrix of gef_file.py lines
90-100: rows 0 and 1 are the penetration-length and depth linspaces, rows
3, 15, 18 and 24 hold the `qc`, `inclination`, `fs` and (percent-scaled)
`Rf` channels when present, every other entry stays `NaN` (`none`). -/
def matrixCell (h : GefHeadersUsed) (md : GefMeasurementData) (n j k : Nat) :
    Option Rat :=
  if k = 0 then some (np_linspace (h.depth * (1 / 1000)) n j)
  else if k = 1 then some (np_linspace (h.corrected_depth * (1 / 1000)) n j)
  else if k = 3 then chanCell md "qc" j
  else if k = 15 then chanCell md "inclination" j
  else if k = 18 then chanCell md "fs" j
  else if k = 24 then
    (match List.lookup "Rf" md with
     | none => none
     | some l => match l[j]? with
       | some v => rf_scale v
       | none => none)
  else none

/-- Column `j` of the matrix, i.e. row `j` of `values.T` (one data row of
the numeric block). -/
def matrixRow (h : GefHeadersUsed) (md : GefMeasurementData) (n j : Nat) :
    List (Option Rat) :=
  (List.range 25).map (matrixCell h md n j)

/-- One rendered field of the numeric block (gef_file.py line 104):
`'-999999' if np.isnan(num) else '{:.3f}'.format(num)`.  `fmt` models the
`'{:.3f}'` float formatting primitive. -/
def renderCell (fmt : Rat → String) : Option Rat → String
  | none => "-999999"
  | some v => fmt v

/-- One rendered data row (before the `','` join and the trailing `';'`
of line 104): the list of rendered fields. -/
def renderRow (fmt : Rat → String) (row : List (Option Rat)) : List String :=
  row.map (renderCell fmt)

/-! ## Conversion facade
(src/app/cpt_file/soil_layout_conversion_functions.py, lines 264-284)

`get_cpt_file_content` selects the conversion direction from the uploaded
file's name and the requested extension.  The two converters are modelled
as abstract functions; reading the stored file is outside the core. -/

/-- Python `str.lower()`, on the character-list view of a string. -/
def pyLower (s : List Char) : List Char := s.map Char.toLower

/-- Python `str.endswith(suffix)`. -/
def pyEndsWith (s suffix : List Char) : Bool :=
  if suffix.length ≤ s.length then s.drop (s.length - suffix.length) == suffix
  else false

/-- `get_cpt_file_content`, given the two converters: a `.gef` file with a
requested `xml` extension is converted GEF→XML, an `.xml` file with a
requested `gef` extension XML→GEF; any other combination leaves the
content untouched.  The facade itself raises nothing, which the `Except`
result records as always `.ok`. -/
def get_cpt_file_content (gefToXml xmlToGef : String → String)
    (extension file_name : List Char) (file_content : String) :
    Except PyError String :=
  let c1 :=
    if pyEndsWith (pyLower file_name) "gef".toList ∧ pyLower extension = "xml".toList
    then gefToXml file_content else file_content
  let c2 :=
    if pyEndsWith (pyLower file_name) "xml".toList ∧ pyLower extension = "gef".toList
    then xmlToGef c1 else c1
  .ok c2

/-! ## XML Template Engine (src/app/cpt_file/cpt/gef_file.py, lines 112-192)

The engine works on rose trees.  To keep every function structurally
recursive (and hence kernel-evaluable), the XML tree, the template tree,
the data object and the tag-shape tree each come with their own child-list
type in a mutual inductive. -/

mutual

/-- An XML element as `lxml` exposes it to the template code: tag,
attributes, namespace map (`None` key allowed for the default namespace),
direct text, child elements in document order. -/
inductive Xml where
  | mk (tag : String) (attributes : List (String × String))
      (nsmap : List (Option String × String)) (text : Option String)
      (children : XmlList)

/-- A list of sibling XML elements in document order. -/
inductive XmlList where
  | nil
  | cons (x : Xml) (rest : XmlList)

end

/-- The element's tag. -/
def Xml.tag : Xml → String
  | .mk t _ _ _ _ => t

mutual

/-- A template node (`_parse_xml_template` output): attributes, the
template's default text, the namespace-prefix delta, and the `value` slot,
which holds either text (`leaf`) or the ordered child dictionary
(`node`). -/
inductive TNode where
  | leaf (attributes : List (String × String)) (dflt : Option String)
      (nsmap : List (Option String × String)) (text : Option String)
  | node (attributes : List (String × String)) (dflt : Option String)
      (nsmap : List (Option String × String)) (children : TChildren)

/-- The ordered dictionary of child tag to child template node. -/
inductive TChildren where
  | nil
  | cons (tag : String) (tnode : TNode) (rest : TChildren)

end

mutual

/-- A value of the data object overlaid onto the template: a scalar
(`None` or a string — `str(...)` is applied at build time) or a nested
dictionary. -/
inductive DataVal where
  | scalar (v : Option String)
  | dict (entries : DataEntries)

/-- The entries of a data dictionary, in insertion order. -/
inductive DataEntries where
  | nil
  | cons (tag : String) (v : DataVal) (rest : DataEntries)

end

mutual

/-- The tag shape of an XML document: the tag and the shapes of the
children, in document order. -/
inductive TagTree where
  | mk (tag : String) (children : TagForest)

/-- A list of sibling tag shapes. -/
inductive TagForest where
  | nil
  | cons (t : TagTree) (rest : TagForest)

end

/-- Strips the `{namespace}` marker off a tag
(`temp_tag.split('}')[-1]` when `'}' in temp_tag`, gef_file.py lines
140-142; when no `'}'` occurs the split returns the whole tag). -/
def strip_ns (t : String) : String :=
  (((t.toList.splitOn '}').getLast?).getD t.toList).asString

/-- Python dict assignment `d[k] = v` on an ordered dictionary: update in
place when the key exists, else append. -/
def odInsert : TChildren → String → TNode → TChildren
  | .nil, k, v => .cons k v .nil
  | .cons k0 v0 rest, k, v =>
      if k0 = k then .cons k0 v rest else .cons k0 v0 (odInsert rest k v)

/-- Same dict-assignment operation for a namespace map. -/
def nsOdInsert : List (Option String × String) → Option String → String →
    List (Option String × String)
  | [], k, v => [(k, v)]
  | (k0, v0) :: rest, k, v =>
      if k0 = k then (k0, v) :: rest else (k0, v0) :: nsOdInsert rest k v

/-- The per-node namespace map of `_parse_xml_template` (gef_file.py lines
174-177): `parent_nsmap or node.nsmap`, replaced by the keys of
`node.nsmap` absent from the parent when both maps are truthy and differ.
(The key set difference is iterated here in the node map's order; Python's
set order is unspecified, and no property below depends on it.) -/
def nsDelta (nodeNs : List (Option String × String))
    (parent : Option (List (Option String × String))) :
    List (Option String × String) :=
  match parent with
  | none => nodeNs
  | some p =>
      if p = [] then nodeNs
      else if nodeNs ≠ [] ∧ nodeNs ≠ p then
        nodeNs.filter (fun kv => ¬ (p.map Prod.fst).contains kv.1)
      else p

mutual

/-- `_parse_xml_template` on a non-root node (gef_file.py lines 166-188):
capture attributes, default text and the namespace delta; `value` is the
node text for a childless element, else the ordered dictionary of parsed
children. -/
def parse_xml_template (x : Xml)
    (parent_nsmap : Option (List (Option String × String))) : TNode :=
  match x with
  | .mk _ attrs nsmap text children =>
      let ns := nsDelta nsmap parent_nsmap
      match children with
      | .nil => .leaf attrs text ns text
      | cs => .node attrs text ns (parseChildren cs ns .nil)

/-- The child loop of lines 181-184: `structure['value'][child.tag] =
parse(child)` over the children in document order, starting from an empty
ordered dictionary. -/
def parseChildren (cs : XmlList)
    (ns : List (Option String × String)) (acc : TChildren) : TChildren :=
  match cs with
  | .nil => acc
  | .cons c rest =>
      parseChildren rest ns (odInsert acc c.tag (parse_xml_template c ns))

end

/-- The BRO document default namespace added to the root node's map
(gef_file.py line 191). -/
def broDefaultNs : String := "http://www.broservices.nl/xsd/dscpt/1.1"

/-- Adds the default-namespace entry to the root structure's map. -/
def setRootNs : TNode → TNode
  | .leaf a d ns t => .leaf a d (nsOdInsert ns none broDefaultNs) t
  | .node a d ns cs => .node a d (nsOdInsert ns none broDefaultNs) cs

/-- The root case of `_parse_xml_template` (gef_file.py lines 186-192):
parse with no parent map, patch the root namespace map, and wrap the
result as the one-entry dictionary `{root_tag: structure}`. -/
def template_of (root : Xml) : String × TNode :=
  (root.tag, setRootNs (parse_xml_template root none))

/-- The template-key search of `_reformat_using_template` (gef_file.py
lines 138-145): the first template key whose namespace-stripped form
equals the data tag. -/
def findTemplateKey : TChildren → String → Option String
  | .nil, _ => none
  | .cons k0 _ rest, tag =>
      if tag = strip_ns k0 then some k0 else findTemplateKey rest tag

/-- Dictionary lookup by exact key. -/
def tcLookup : TChildren → String → Option TNode
  | .nil, _ => none
  | .cons k0 t rest, k => if k0 = k then some t else tcLookup rest k

/-- Replaces the node stored under an exact key. -/
def tcUpdate : TChildren → String → TNode → TChildren
  | .nil, _, _ => .nil
  | .cons k0 t rest, k, n =>
      if k0 = k then .cons k0 n rest else .cons k0 t (tcUpdate rest k n)

/-- `filled_template[tag]['value'] = value` for a scalar `value`: the
`value` slot becomes the scalar, whatever it held before. -/
def nodeWithValueScalar : TNode → Option String → TNode
  | .leaf a d ns _, s => .leaf a d ns s
  | .node a d ns _, s => .leaf a d ns s

/-- `filled_template[tag]['value'] = <filled children>`. -/
def nodeWithValueChildren : TNode → TChildren → TNode
  | .leaf a d ns _, cs => .node a d ns cs
  | .node a d ns _, cs => .node a d ns cs

mutual

/-- The update of one matched template entry (gef_file.py lines 150-154):
a scalar data value overwrites the `value` slot; a nested data dictionary
recurses into the ORIGINAL template's child dictionary (raising — `none` —
when that `value` slot is not a dictionary) and stores the result. -/
def reformatOne (v : DataVal) (origNode accNode : TNode) : Option TNode :=
  match v with
  | .scalar s => some (nodeWithValueScalar accNode s)
  | .dict es =>
      match origNode with
      | .node _ _ _ cs =>
          (reformatChildren es cs cs).map (nodeWithValueChildren accNode)
      | .leaf _ _ _ _ => none

/-- The data loop of `_reformat_using_template` with `skip_root=False`
(gef_file.py lines 137-154): `orig` is the template dictionary being read,
`acc` the deep copy being filled (initially equal to `orig`).  A data tag
with no template match is skipped with a diagnostic; a matched tag updates
the copy's entry. -/
def reformatChildren (es : DataEntries) (orig acc : TChildren) :
    Option TChildren :=
  match es with
  | .nil => some acc
  | .cons tag v rest =>
      match findTemplateKey orig tag with
      | none => reformatChildren rest orig acc
      | some ktag =>
          match tcLookup orig ktag, tcLookup acc ktag with
          | some origNode, some accNode =>
              match reformatOne v origNode accNode with
              | some n => reformatChildren rest orig (tcUpdate acc ktag n)
              | none => none
          | _, _ => none

end

/-- `_reformat_using_template(data, template)` with `skip_root=True`
(gef_file.py lines 128-135): recurse into the root entry's `value`
dictionary with the whole data object.  A non-dictionary root `value` or a
scalar data object makes the Python iteration raise (`none`). -/
def reformat_using_template (data : DataVal) (tmpl : String × TNode) :
    Option (String × TNode) :=
  match tmpl.2, data with
  | .node a d ns cs, .dict es =>
      (reformatChildren es cs cs).map (fun sub => (tmpl.1, TNode.node a d ns sub))
  | .node _ _ _ _, .scalar _ => none
  | .leaf _ _ _ _, _ => none

mutual

/-- `_build_xml` on one entry (gef_file.py lines 112-126): an element with
the entry's attributes and namespace map; a dictionary `value` produces
the child elements in dictionary order, any other `value` becomes the
element text (`''` for `None`). -/
def build_xml_node (tag : String) (t : TNode) : Xml :=
  match t with
  | .leaf attrs _ ns text => .mk tag attrs ns (some (text.getD "")) .nil
  | .node attrs _ ns cs => .mk tag attrs ns none (buildChildren cs)

/-- The children built in dictionary order. -/
def buildChildren : TChildren → XmlList
  | .nil => .nil
  | .cons tag t rest => .cons (build_xml_node tag t) (buildChildren rest)

end

/-- `_build_xml` on the templated data `{root_tag: structure}`. -/
def build_xml (tmpl : String × TNode) : Xml :=
  build_xml_node tmpl.1 tmpl.2

mutual

/-- The tag shape of an XML document. -/
def xmlShape : Xml → TagTree
  | .mk tag _ _ _ cs => .mk tag (xmlShapeList cs)

/-- The tag shapes of sibling elements, in document order. -/
def xmlShapeList : XmlList → TagForest
  | .nil => .nil
  | .cons c rest => .cons (xmlShape c) (xmlShapeList rest)

end

mutual

/-- The tag shape a template node produces when built under `tag`. -/
def tShape (tag : String) : TNode → TagTree
  | .leaf _ _ _ _ => .mk tag .nil
  | .node _ _ _ cs => .mk tag (tShapeList cs)

/-- The tag shapes of a template child dictionary. -/
def tShapeList : TChildren → TagForest
  | .nil => .nil
  | .cons tag t rest => .cons (tShape tag t) (tShapeList rest)

end

/-- The tags of sibling XML elements. -/
def xmlTagsOf : XmlList → List String
  | .nil => []
  | .cons c rest => c.tag :: xmlTagsOf rest

/-- Boolean no-duplicates test. -/
def nodupB : List String → Bool
  | [] => true
  | a :: as => (!as.contains a) && nodupB as

mutual

/-- Sibling tags are pairwise distinct at every level of the document. -/
def distinctTags : Xml → Bool
  | .mk _ _ _ _ cs => nodupB (xmlTagsOf cs) && distinctTagsList cs

/-- `distinctTags` for every element of a sibling list. -/
def distinctTagsList : XmlList → Bool
  | .nil => true
  | .cons c rest => distinctTags c && distinctTagsList rest

end

/-- The keys of a template child dictionary. -/
def tcKeys : TChildren → List String
  | .nil => []
  | .cons k _ rest => k :: tcKeys rest

mutual

/-- The data value fits the template node's schema: scalars sit at text
slots, dictionaries at child dictionaries (recursively). -/
def subschemaVal : DataVal → TNode → Bool
  | .scalar _, .leaf _ _ _ _ => true
  | .dict es, .node _ _ _ cs => subschemaEntries es cs
  | _, _ => false

/-- Every data entry matches some template key (after namespace
stripping) and fits that entry's schema. -/
def subschemaEntries : DataEntries → TChildren → Bool
  | .nil, _ => true
  | .cons tag v rest, tmpl =>
      (match findTemplateKey tmpl tag with
       | none => false
       | some ktag =>
           match tcLookup tmpl ktag with
           | some t => subschemaVal v t
           | none => false) && subschemaEntries rest tmpl

end

/-- The child dictionary of a template node when its `value` slot is a
dictionary. -/
def rootChildren : TNode → Option TChildren
  | .node _ _ _ cs => some cs
  | .leaf _ _ _ _ => none

/-- Concatenation of template child dictionaries (proof auxiliary). -/
def tcAppend : TChildren → TChildren → TChildren
  | .nil, b => b
  | .cons k t rest, b => .cons k t (tcAppend rest b)

/-- Concatenation of tag forests (proof auxiliary). -/
def tfAppend : TagForest → TagForest → TagForest
  | .nil, b => b
  | .cons t rest, b => .cons t (tfAppend rest b)

/-- The per-child parse without the ordered-dictionary insertion (proof
auxiliary): what `parseChildren` produces when no sibling tags collide. -/
def mapParse : XmlList → List (Option String × String) → TChildren
  | .nil, _ => .nil
  | .cons c rest, ns => .cons c.tag (parse_xml_template c ns) (mapParse rest ns)

/-! ## Concrete inputs used by witnesses and counterexamples -/

/-- A `parameters` list with one flagged tag that has no Column Registry
match. -/
def params_unknown : List (String × Bool) := [("bogusQuantity", true)]

/-- A second such list, for the amended theorem's witness. -/
def params_unknown2 : List (String × Bool) := [("anotherBogusQuantity", true)]

/-- The parameter list of the two-column scenario. -/
def params_scenario : List (String × Bool) :=
  [("depth", true), ("coneResistance", true), ("localFriction", false)]

/-- A numeric block with two rows of three fields, default separators. -/
def values_scenario : List Char := "1.0,2.0,3.0;4.0,5.0,6.0;".toList

/-- A trivial `float()` model used where the parsed values are
irrelevant. -/
def pf_zero : List Char → Rat := fun _ => 0

/-- A `float()` model that parses the sentinel literal and nothing else. -/
def pf_sentinel : List Char → Rat :=
  fun s => if s = "-999999".toList then -999999 else 0

/-- A measurement dictionary with an empty `fs` channel. -/
def md_empty_fs : GefMeasurementData := [("fs", [])]

/-- A measurement dictionary with a single missing `qc` sample. -/
def md_missing_qc : GefMeasurementData := [("qc", [none])]

/-- An XML document with no `depth` parameter and an empty numeric
block. -/
def xml_no_depth_empty : XmlCpt :=
  { broId := "CPT-X", researchReportDate := "2020-01-01",
    verticalDatum := "NAP", localVerticalReferencePoint := "maaiveld",
    conePenetrometerType := "T", offset := "0".toList,
    coneSurfaceQuotient := [], coneToFrictionSleeveDistance := [],
    coneSurfaceArea := [], frictionSleeveSurfaceArea := [],
    predrilledDepth := "0", finalDepth := "0".toList,
    pos := "1 2".toList,
    parameters := [("coneResistance", true)],
    encoding := none, values := [], topLevelKeys := [] }

/-- The same document with one data row. -/
def xml_no_depth_one_row : XmlCpt :=
  { xml_no_depth_empty with values := "1;".toList }

/-- A document with a mapped `depth` and `coneResistance` parameter and a
single row whose cone-resistance field is the sentinel. -/
def xml_sentinel_row : XmlCpt :=
  { xml_no_depth_empty with
    parameters := [("depth", true), ("coneResistance", true)],
    values := "0,-999999;".toList }

/-- The measurement data `convert_xml_dict_to_cpt_dict` produces for
`xml_sentinel_row` under `pf_sentinel`: the sentinel-valued
cone-resistance field becomes the absence value, the elevation and
corrected-depth fields their scaled values. -/
def md_sentinel_row : MeasurementData :=
  { Rf := [], fs := [], qc := [none],
    elevation := [some (transformValue
      (pyInt (pf_sentinel xml_sentinel_row.offset * 1000)) "elevation"
      (pf_sentinel ['0']))],
    corrected_depth := [some (transformValue
      (pyInt (pf_sentinel xml_sentinel_row.offset * 1000)) "corrected_depth"
      (pf_sentinel ['0']))] }

/-- The headers `convert_xml_dict_to_cpt_dict` produces for
`xml_sentinel_row` under `pf_sentinel`. -/
def hdrs_sentinel_row : CptHeaders :=
  buildCptHeaders pf_sentinel xml_sentinel_row

/-- A one-row numeric block (pre-split form) for the row-count witness. -/
def rows_one : List (List Char) := ["1,2".toList]

/-- The meta/data result for `rows_one` with one flagged
`penetrationLength` parameter. -/
def res_rows_one : GefDataResult :=
  { column := 1,
    columninfo := [(⟨1, "penetration length", "m"⟩, 1)],
    lastscan := 1, lines := ["1;!".toList] }

/-- The meta/data result of the two-column scenario on
`values_scenario`. -/
def res_scenario : GefDataResult :=
  { column := 2,
    columninfo := [(⟨11, "depth", "m"⟩, 1), (⟨2, "cone resistance", "MPa"⟩, 2)],
    lastscan := 2,
    lines := ["1.0;2.0;!".toList, "4.0;5.0;!".toList] }

/-- A small skeleton document: a root with a text child and a nested
child. -/
def skeleton_small : Xml :=
  .mk "root" [] [] none
    (.cons (.mk "a" [] [] (some "x") .nil)
      (.cons (.mk "b" [] [] none
        (.cons (.mk "c" [] [] (some "y") .nil) .nil)) .nil))

/-- The parsed child dictionary of `skeleton_small`'s template. -/
def skeleton_small_children : TChildren :=
  .cons "a" (.leaf [] (some "x") [] (some "x"))
    (.cons "b" (.node [] none []
      (.cons "c" (.leaf [] (some "y") [] (some "y")) .nil)) .nil)

/-- A data object filling only the `a` field of `skeleton_small`. -/
def data_small : DataEntries := .cons "a" (.scalar (some "1")) .nil

/-- A constant `'{:.3f}'`-style formatter stand-in for witnesses. -/
def fmt_const : Rat → String := fun _ => "0.000"

/-! ## Helper lemmas -/

theorem splitOnP_ne_nil {α : Type} (p : α → Bool) (l : List α) :
    List.splitOnP p l ≠ [] := by
  induction l with
  | nil => simp [List.splitOnP_nil]
  | cons a l ih =>
      rw [List.splitOnP_cons]
      split
      · simp
      · cases h : List.splitOnP p l with
        | nil => exact absurd h ih
        | cons b t => simp [List.modifyHead]

theorem splitOnP_append_sepfree {α : Type} (p : α → Bool) (xs : List α)
    (y : α) (ys : List α) (hxs : ∀ x ∈ xs, p x = false) (hy : p y = true) :
    List.splitOnP p (xs ++ y :: ys) = xs :: List.splitOnP p ys := by
  induction xs with
  | nil => simp [List.splitOnP_cons, hy]
  | cons x xs ih =>
      have hx : p x = false := hxs x (by simp)
      have ih2 := ih (fun a ha => hxs a (by simp [ha]))
      rw [List.cons_append, List.splitOnP_cons, hx, ih2]
      simp [List.modifyHead]

theorem splitOnP_sepfree_eq {α : Type} (p : α → Bool) (l : List α)
    (h : ∀ x ∈ l, p x = false) : List.splitOnP p l = [l] := by
  induction l with
  | nil => simp [List.splitOnP_nil]
  | cons a l ih =>
      have ha : p a = false := h a (by simp)
      have ih2 := ih (fun x hx => h x (by simp [hx]))
      rw [List.splitOnP_cons, ha, ih2]
      simp [List.modifyHead]

theorem mem_splitOnP_sepfree {α : Type} (p : α → Bool) :
    ∀ (l piece : List α), piece ∈ List.splitOnP p l → ∀ x ∈ piece, p x = false := by
  intro l
  induction l with
  | nil =>
      intro piece hp x hx
      rw [List.splitOnP_nil] at hp
      simp at hp
      subst hp
      simp at hx
  | cons a l ih =>
      intro piece hp x hx
      rw [List.splitOnP_cons] at hp
      by_cases hpa : p a = true
      · rw [if_pos hpa] at hp
        rcases List.mem_cons.mp hp with h1 | h1
        · subst h1; simp at hx
        · exact ih piece h1 x hx
      · rw [if_neg hpa] at hp
        cases hsp : List.splitOnP p l with
        | nil => exact absurd hsp (splitOnP_ne_nil p l)
        | cons b t =>
            rw [hsp, List.modifyHead_cons] at hp
            rcases List.mem_cons.mp hp with h1 | h1
            · subst h1
              rcases List.mem_cons.mp hx with h2 | h2
              · subst h2; exact Bool.eq_false_iff.mpr hpa
              · exact ih b (by rw [hsp]; exact List.mem_cons_self b t) x h2
            · exact ih piece (by rw [hsp]; exact List.mem_cons_of_mem b h1) x hx

theorem mem_of_mem_splitOnP {α : Type} (p : α → Bool) :
    ∀ (l piece : List α), piece ∈ List.splitOnP p l → ∀ x ∈ piece, x ∈ l := by
  intro l
  induction l with
  | nil =>
      intro piece hp x hx
      rw [List.splitOnP_nil] at hp
      simp at hp
      subst hp
      simp at hx
  | cons a l ih =>
      intro piece hp x hx
      rw [List.splitOnP_cons] at hp
      by_cases hpa : p a = true
      · rw [if_pos hpa] at hp
        rcases List.mem_cons.mp hp with h1 | h1
        · subst h1; simp at hx
        · exact List.mem_cons_of_mem a (ih piece h1 x hx)
      · rw [if_neg hpa] at hp
        cases hsp : List.splitOnP p l with
        | nil => exact absurd hsp (splitOnP_ne_nil p l)
        | cons b t =>
            rw [hsp, List.modifyHead_cons] at hp
            rcases List.mem_cons.mp hp with h1 | h1
            · subst h1
              rcases List.mem_cons.mp hx with h2 | h2
              · exact h2 ▸ List.mem_cons_self a l
              · exact List.mem_cons_of_mem a
                  (ih b (by rw [hsp]; exact List.mem_cons_self b t) x h2)
            · exact List.mem_cons_of_mem a
                (ih piece (by rw [hsp]; exact List.mem_cons_of_mem b h1) x hx)

theorem charSepFree_of_not_mem {l : List Char} {sep : Char} (h : sep ∉ l) :
    ∀ x ∈ l, (x == sep) = false := by
  intro x hx
  exact beq_eq_false_iff_ne.mpr (fun he => h (he ▸ hx))

theorem splitOn_terminated (sep : Char) (rows : List (List Char))
    (h : ∀ r ∈ rows, sep ∉ r) :
    List.splitOn sep ((rows.map (fun r => r ++ [sep])).flatten) = rows ++ [[]] := by
  show List.splitOnP (fun x => x == sep) _ = _
  induction rows with
  | nil => simp [List.splitOnP_nil]
  | cons r rest ih =>
      have hr : ∀ x ∈ r, (x == sep) = false :=
        charSepFree_of_not_mem (h r (List.mem_cons_self r rest))
      have ih2 := ih (fun a ha => h a (List.mem_cons_of_mem r ha))
      have hflat : ((r :: rest).map (fun r => r ++ [sep])).flatten
          = r ++ sep :: (rest.map (fun r => r ++ [sep])).flatten := by
        simp
      rw [hflat, splitOnP_append_sepfree _ r sep _ hr (beq_self_eq_true sep), ih2]
      rfl

theorem exceptMap_cons_eq {α β : Type} (f : α → Except PyError β) (a : α)
    (as : List α) :
    exceptMap f (a :: as) = Except.bind (f a)
      (fun b => Except.bind (exceptMap f as) (fun bs => Except.ok (b :: bs))) :=
  rfl

theorem exceptMap_ok_length {α β : Type} (f : α → Except PyError β) :
    ∀ (xs : List α) (ys : List β), exceptMap f xs = .ok ys → ys.length = xs.length := by
  intro xs
  induction xs with
  | nil =>
      intro ys h
      simp [exceptMap] at h
      subst h
      rfl
  | cons a as ih =>
      intro ys h
      rw [exceptMap_cons_eq] at h
      cases hfa : f a with
      | error e => rw [hfa] at h; simp [Except.bind] at h
      | ok b =>
          rw [hfa] at h
          cases hm : exceptMap f as with
          | error e => rw [hm] at h; simp [Except.bind] at h
          | ok bs =>
              rw [hm] at h
              simp [Except.bind] at h
              subst h
              simp [ih bs hm]

theorem exceptMap_ok_get {α β : Type} (f : α → Except PyError β) :
    ∀ (xs : List α) (ys : List β), exceptMap f xs = .ok ys →
      ∀ (j : Nat) (a : α), xs[j]? = some a →
        ∃ b, f a = .ok b ∧ ys[j]? = some b := by
  intro xs
  induction xs with
  | nil =>
      intro ys hm j a ha
      simp at ha
  | cons x xs ih =>
      intro ys hm j a ha
      rw [exceptMap_cons_eq] at hm
      cases hfx : f x with
      | error e => rw [hfx] at hm; simp [Except.bind] at hm
      | ok b =>
          rw [hfx] at hm
          cases hm2 : exceptMap f xs with
          | error e => rw [hm2] at hm; simp [Except.bind] at hm
          | ok bs =>
              rw [hm2] at hm
              simp [Except.bind] at hm
              subst hm
              cases j with
              | zero =>
                  simp at ha
                  subst ha
                  exact ⟨b, hfx, by simp⟩
              | succ j =>
                  simp at ha
                  obtain ⟨c, hc, hy⟩ := ih bs hm2 j a ha
                  exact ⟨c, hc, by simpa using hy⟩

theorem exceptMap_ok_mem {α β : Type} (f : α → Except PyError β) :
    ∀ (xs : List α) (ys : List β), exceptMap f xs = .ok ys →
      ∀ y ∈ ys, ∃ x ∈ xs, f x = .ok y := by
  intro xs
  induction xs with
  | nil =>
      intro ys hm y hy
      simp [exceptMap] at hm
      subst hm
      simp at hy
  | cons x xs ih =>
      intro ys hm y hy
      rw [exceptMap_cons_eq] at hm
      cases hfx : f x with
      | error e => rw [hfx] at hm; simp [Except.bind] at hm
      | ok b =>
          rw [hfx] at hm
          cases hm2 : exceptMap f xs with
          | error e => rw [hm2] at hm; simp [Except.bind] at hm
          | ok bs =>
              rw [hm2] at hm
              simp [Except.bind] at hm
              subst hm
              rcases List.mem_cons.mp hy with h1 | h1
              · exact ⟨x, List.mem_cons_self x xs, h1 ▸ hfx⟩
              · obtain ⟨z, hz, hfz⟩ := ih bs hm2 y h1
                exact ⟨z, List.mem_cons_of_mem x hz, hfz⟩

theorem pySorted_length {α : Type} (k : α → Rat) (l : List α) :
    (pySortedByKey k l).length = l.length :=
  List.length_insertionSort _ l

theorem pySorted_mem {α : Type} (k : α → Rat) (l : List α) (a : α) :
    a ∈ pySortedByKey k l ↔ a ∈ l :=
  (List.perm_insertionSort _ l).mem_iff

theorem pySorted_sorted {α : Type} (k : α → Rat) (l : List α) :
    List.Sorted (fun a b => k a ≤ k b) (pySortedByKey k l) := by
  haveI : IsTotal α (fun a b => k a ≤ k b) := ⟨fun a b => le_total (k a) (k b)⟩
  haveI : IsTrans α (fun a b => k a ≤ k b) :=
    ⟨fun _ _ _ h1 h2 => le_trans h1 h2⟩
  exact List.sorted_insertionSort _ l

/-! ## Claim theorems -/

/-- C2: every code-table lookup is total — in this embedding each table is
a total function, so no input can raise — and every input outside a
table's known keys resolves to that table's fallback code `"-"`. -/
theorem code_table_totality :
    (∀ s : String, s ∉ zid_known_keys → zid_codes s = "-")
    ∧ (∀ s : String, s ∉ stop_known_keys → stop_criteria s = "-")
    ∧ (∀ s : String, s ∉ cpt_method_known_keys → cpt_method s = "-")
    ∧ (∀ s : String, s ∉ xyid_known_keys → xyid_codes s = "-") := by
  refine ⟨fun s hs => ?_, fun s hs => ?_, fun s hs => ?_, fun s hs => ?_⟩ <;>
    · first
      | (simp [zid_known_keys] at hs
         simp [zid_codes, hs])
      | (simp [stop_known_keys] at hs
         simp [stop_criteria, hs])
      | (simp [cpt_method_known_keys] at hs
         simp [cpt_method, hs])
      | (simp [xyid_known_keys] at hs
         simp [xyid_codes, hs])

/-- Witness for C2: the string `"unknown vocabulary"` is in none of the
four tables and resolves to `"-"` in each. -/
theorem code_table_totality_witness :
    zid_codes "unknown vocabulary" = "-"
    ∧ stop_criteria "unknown vocabulary" = "-"
    ∧ cpt_method "unknown vocabulary" = "-"
    ∧ xyid_codes "unknown vocabulary" = "-" :=
  ⟨code_table_totality.1 "unknown vocabulary" (by decide),
   code_table_totality.2.1 "unknown vocabulary" (by decide),
   code_table_totality.2.2.1 "unknown vocabulary" (by decide),
   code_table_totality.2.2.2 "unknown vocabulary" (by decide)⟩

/-- C6 counterexample: a record whose `fs` channel is present but empty
still gets `localFriction = "ja"`, although the claim's
present-and-non-empty reading demands `"nee"`. -/
theorem gef_parameter_flags_cex :
    List.lookup "localFriction" (gefParameters md_empty_fs) = some "ja"
    ∧ List.lookup "fs" md_empty_fs = some []
    ∧ "ja" ≠ "nee" := by
  refine ⟨?_, ?_, ?_⟩ <;> decide

/-- C6 (amended): the produced `parameters` block maps `depth` and
`penetrationLength` to the literal `"ja"` unconditionally, and maps
`inclinationResultant`, `localFriction`, `frictionRatio` and
`coneResistance` to `"ja"` exactly when the channel key (`inclination`,
`fs`, `Rf`, `qc`) is present in `measurement_data`, to `"nee"` exactly
when it is absent — key presence, not non-emptiness, is the test. -/
theorem gef_parameter_flags (md : GefMeasurementData) :
    List.lookup "depth" (gefParameters md) = some "ja"
    ∧ List.lookup "penetrationLength" (gefParameters md) = some "ja"
    ∧ (List.lookup "inclinationResultant" (gefParameters md) = some "ja"
        ↔ "inclination" ∈ md.map Prod.fst)
    ∧ (List.lookup "inclinationResultant" (gefParameters md) = some "nee"
        ↔ "inclination" ∉ md.map Prod.fst)
    ∧ (List.lookup "localFriction" (gefParameters md) = some "ja"
        ↔ "fs" ∈ md.map Prod.fst)
    ∧ (List.lookup "localFriction" (gefParameters md) = some "nee"
        ↔ "fs" ∉ md.map Prod.fst)
    ∧ (List.lookup "frictionRatio" (gefParameters md) = some "ja"
        ↔ "Rf" ∈ md.map Prod.fst)
    ∧ (List.lookup "frictionRatio" (gefParameters md) = some "nee"
        ↔ "Rf" ∉ md.map Prod.fst)
    ∧ (List.lookup "coneResistance" (gefParameters md) = some "ja"
        ↔ "qc" ∈ md.map Prod.fst)
    ∧ (List.lookup "coneResistance" (gefParameters md) = some "nee"
        ↔ "qc" ∉ md.map Prod.fst) := by
  have hja : ∀ key : String, yes_no key md = "ja" ↔ key ∈ md.map Prod.fst := by
    intro key
    unfold yes_no
    by_cases hk : key ∈ List.map Prod.fst md
    · rw [if_pos (List.elem_iff.mpr hk)]
      simp [hk]
    · have hf : ¬((List.map Prod.fst md).contains key = true) :=
        fun hc => hk (List.elem_iff.mp hc)
      rw [if_neg hf]
      simp [hk]
  have hnee : ∀ key : String, yes_no key md = "nee" ↔ key ∉ md.map Prod.fst := by
    intro key
    unfold yes_no
    by_cases hk : key ∈ List.map Prod.fst md
    · rw [if_pos (List.elem_iff.mpr hk)]
      simp [hk]
    · have hf : ¬((List.map Prod.fst md).contains key = true) :=
        fun hc => hk (List.elem_iff.mp hc)
      rw [if_neg hf]
      simp [hk]
  have e3 : List.lookup "inclinationResultant" (gefParameters md)
      = some (yes_no "inclination" md) := rfl
  have e4 : List.lookup "localFriction" (gefParameters md)
      = some (yes_no "fs" md) := rfl
  have e5 : List.lookup "frictionRatio" (gefParameters md)
      = some (yes_no "Rf" md) := rfl
  have e6 : List.lookup "coneResistance" (gefParameters md)
      = some (yes_no "qc" md) := rfl
  refine ⟨rfl, rfl, ?_, ?_, ?_, ?_, ?_, ?_, ?_, ?_⟩
  · rw [e3, Option.some_inj]; exact hja "inclination"
  · rw [e3, Option.some_inj]; exact hnee "inclination"
  · rw [e4, Option.some_inj]; exact hja "fs"
  · rw [e4, Option.some_inj]; exact hnee "fs"
  · rw [e5, Option.some_inj]; exact hja "Rf"
  · rw [e5, Option.some_inj]; exact hnee "Rf"
  · rw [e6, Option.some_inj]; exact hja "qc"
  · rw [e6, Option.some_inj]; exact hnee "qc"

/-- C9 counterexample: the request pair (target `pdf`, uploaded `a.xml`)
has no conversion path, yet the facade returns the content unchanged
instead of failing with the claimed error. -/
theorem facade_unsupported_cex :
    get_cpt_file_content id id "pdf".toList "a.xml".toList "raw-bytes"
      = .ok "raw-bytes"
    ∧ (Except.ok "raw-bytes" : Except PyError String)
        ≠ .error .unsupportedConversionError := by
  refine ⟨?_, ?_⟩ <;> decide

/-- C9 (amended): for every `(source, target)` pair matched by neither
conversion rule, `get_cpt_file_content` returns the source content
unchanged; it raises nothing. -/
theorem facade_passthrough (g x : String → String)
    (extension file_name : List Char) (c : String)
    (h1 : ¬(pyEndsWith (pyLower file_name) "gef".toList
            ∧ pyLower extension = "xml".toList))
    (h2 : ¬(pyEndsWith (pyLower file_name) "xml".toList
            ∧ pyLower extension = "gef".toList)) :
    get_cpt_file_content g x extension file_name c = .ok c := by
  simp only [get_cpt_file_content, if_neg h1, if_neg h2]

/-- Witness for the amended C9: a `.csv` upload with requested target
`txt` passes through untouched. -/
theorem facade_passthrough_witness :
    get_cpt_file_content id id "txt".toList "b.csv".toList "some-content"
      = .ok "some-content" :=
  facade_passthrough id id "txt".toList "b.csv".toList "some-content"
    (by decide) (by decide)

theorem buildColumns_err (params : List (String × Bool))
    (h : ∃ p ∈ params, p.2 = true ∧
      databloc_cols_def.filter
        (fun w => w.description = undo_camelcase p.1) = []) :
    ∀ (i : Nat) (cols : List Nat) (info : List (ColDef × Nat)),
      buildColumns params i cols info = .error .indexError := by
  induction params with
  | nil => obtain ⟨p, hp, _⟩ := h; simp at hp
  | cons q rest ih =>
      intro i cols info
      obtain ⟨tag, value⟩ := q
      obtain ⟨p, hp, hpt, hpf⟩ := h
      unfold buildColumns
      rcases List.mem_cons.mp hp with h1 | h1
      · subst h1
        simp only at hpt
        rw [if_pos hpt, hpf]
        rfl
      · by_cases hv : value = true
        · rw [if_pos hv]
          cases hf : (databloc_cols_def.filter
              (fun w => w.description = undo_camelcase tag))[0]? with
          | none => rfl
          | some w => exact ih ⟨p, h1, hpt, hpf⟩ _ _ _
        · rw [if_neg hv]
          exact ih ⟨p, h1, hpt, hpf⟩ _ _ _

/-- C7 counterexample: a flagged parameter with no Column Registry match
makes the conversion fail with a bare `IndexError` (the `[0]` indexing of
the empty filtered registry), not with a typed `UnknownColumnError` — no
such error class exists in the code. -/
theorem unknown_column_cex :
    convert_to_gef_data pf_zero params_unknown none [] = .error .indexError
    ∧ (Except.error PyError.indexError : Except PyError GefDataResult)
        ≠ .error .unknownColumnError := by
  refine ⟨?_, ?_⟩ <;> decide

/-- C7 (amended): if some `True`-flagged parameter's namespace-stripped,
de-camel-cased description has no Column Registry entry, the XML→GEF
conversion aborts with an `IndexError` (an untyped built-in exception
raised by indexing the empty filtered registry list) and produces no
output. -/
theorem unknown_column_aborts (pyFloat : List Char → Rat)
    (params : List (String × Bool)) (encoding : Option (Char × Char))
    (values : List Char)
    (h : ∃ p ∈ params, p.2 = true ∧
      databloc_cols_def.filter
        (fun w => w.description = undo_camelcase p.1) = []) :
    convert_to_gef_data pyFloat params encoding values = .error .indexError := by
  have hb := buildColumns_err params h 0 [] []
  unfold convert_to_gef_data
  rw [hb]

/-- Witness for the amended C7: the flagged tag `anotherBogusQuantity`
has no registry match and the conversion returns the `IndexError`. -/
theorem unknown_column_aborts_witness :
    convert_to_gef_data pf_zero params_unknown2 none "1,2;".toList
      = .error .indexError :=
  unknown_column_aborts pf_zero params_unknown2 none "1,2;".toList
    (by decide)


/-- C3: for a numeric block consisting of `N` rows each terminated by the
block separator (and not containing it), a successful XML→GEF conversion
emits exactly `N` data lines and sets `LASTSCAN = N`. -/
theorem xml_to_gef_row_count (pyFloat : List Char → Rat)
    (params : List (String × Bool)) (encoding : Option (Char × Char))
    (rows : List (List Char))
    (hsep : ∀ r ∈ rows, (encSeps encoding).2 ∉ r)
    (res : GefDataResult)
    (hok : convert_to_gef_data pyFloat params encoding
      ((rows.map (fun r => r ++ [(encSeps encoding).2])).flatten) = .ok res) :
    res.lines.length = rows.length ∧ res.lastscan = rows.length := by
  have hlen : (gefSortedRows pyFloat encoding
      ((rows.map (fun r => r ++ [(encSeps encoding).2])).flatten)).length
      = rows.length := by
    unfold gefSortedRows
    rw [pySorted_length]
    unfold gefDataRows
    rw [splitOn_terminated _ rows hsep, List.dropLast_concat, List.length_map]
  unfold convert_to_gef_data at hok
  split at hok
  · exact Except.noConfusion hok
  · split at hok
    · exact Except.noConfusion hok
    · rename_i columns info hcols lines hm
      injection hok with hres
      subst hres
      refine ⟨?_, hlen⟩
      show lines.length = rows.length
      rw [exceptMap_ok_length _ _ _ hm, hlen]

/-- Witness for C3: a one-row block yields one line and `LASTSCAN = 1`. -/
theorem xml_to_gef_row_count_witness :
    res_rows_one.lines.length = rows_one.length
    ∧ res_rows_one.lastscan = rows_one.length :=
  xml_to_gef_row_count pf_zero [("penetrationLength", true)] none rows_one
    (by decide) res_rows_one (by decide)

/-- C4: the rows of the XML→GEF data block are emitted in order of
non-decreasing first-field value (`float(row[0])`), whatever order the
document delivered them in. -/
theorem xml_to_gef_sorted (pyFloat : List Char → Rat)
    (encoding : Option (Char × Char)) (values : List Char) :
    List.Sorted (· ≤ ·)
      ((gefSortedRows pyFloat encoding values).map
        (fun row => pyFloat (row.headD []))) := by
  have h := pySorted_sorted (fun row : List (List Char) => pyFloat (row.headD []))
    (gefDataRows encoding values)
  unfold gefSortedRows
  exact List.Pairwise.map (fun row : List (List Char) => pyFloat (row.headD []))
    (fun a b hab => hab) h

theorem pyIdx_ok {α : Type} {xs : List α} {i : Nat} {a : α}
    (h : pyIdx xs i = .ok a) : xs[i]? = some a := by
  unfold pyIdx at h
  cases hx : xs[i]? with
  | none => rw [hx] at h; exact Except.noConfusion h
  | some b => rw [hx] at h; injection h with hb; rw [hb]

/-- C8 counterexample: in the two-column scenario the emitted data-row
fields are joined by `';'`, so a row stripped of its `;!` terminator has
one comma-separated field, not the claimed two. -/
theorem gef_scenario_cex :
    convert_to_gef_data pf_zero params_scenario none values_scenario
      = .ok res_scenario
    ∧ res_scenario.lines[0]? = some "1.0;2.0;!".toList
    ∧ (("1.0;2.0;!".toList.take ("1.0;2.0;!".toList.length - 2)).splitOn ','
        ).length = 1
    ∧ (1 : Nat) ≠ 2 := by
  refine ⟨?_, ?_, ?_, ?_⟩ <;> decide

/-- C8 (amended): with parameters `[("depth", true), ("coneResistance",
true), ("localFriction", false)]` and default separators, a successful
XML→GEF conversion has `COLUMN = 2` and every emitted data row consists
of exactly 2 semicolon-separated fields before the `;!` terminator. -/
theorem gef_scenario_two_columns (pyFloat : List Char → Rat)
    (values : List Char) (res : GefDataResult)
    (hok : convert_to_gef_data pyFloat params_scenario none values = .ok res) :
    res.column = 2
    ∧ ∀ l ∈ res.lines, ((l.take (l.length - 2)).splitOn ';').length = 2 := by
  have hb : buildColumns params_scenario 0 [] [] =
      .ok ([0, 1], [(⟨11, "depth", "m"⟩, 1), (⟨2, "cone resistance", "MPa"⟩, 2)]) := by
    decide
  unfold convert_to_gef_data at hok
  rw [hb] at hok
  replace hok : (match exceptMap (gefDataLine [0, 1])
      (gefSortedRows pyFloat none values) with
    | .error e => (.error e : Except PyError GefDataResult)
    | .ok lines => .ok (GefDataResult.mk 2
        [(⟨11, "depth", "m"⟩, 1), (⟨2, "cone resistance", "MPa"⟩, 2)]
        (gefSortedRows pyFloat none values).length lines)) = .ok res := hok
  split at hok
  · exact Except.noConfusion hok
  · rename_i lines hm
    injection hok with hres
    subst hres
    refine ⟨rfl, ?_⟩
    intro l hl
    obtain ⟨row, hrow, hline⟩ := exceptMap_ok_mem _ _ _ hm l hl
    unfold gefDataLine at hline
    split at hline
    · exact Except.noConfusion hline
    · rename_i fields hf
      injection hline with hl2
      have hlen2 : fields.length = 2 := by
        rw [exceptMap_ok_length _ _ _ hf]
        rfl
      obtain ⟨b0, hb0, hg0⟩ := exceptMap_ok_get _ _ _ hf 0 0 (by decide)
      obtain ⟨b1, hb1, hg1⟩ := exceptMap_ok_get _ _ _ hf 1 1 (by decide)
      have hrowmem : row ∈ gefDataRows none values := by
        rw [← pySorted_mem (fun r => pyFloat (r.headD []))
          (gefDataRows none values) row]
        exact hrow
      obtain ⟨piece, hpiece, hrowsplit⟩ :
          ∃ piece, piece ∈ (values.splitOn ';').dropLast
            ∧ row = piece.splitOn ',' := by
        unfold gefDataRows encSeps at hrowmem
        simp only [List.mem_map] at hrowmem
        obtain ⟨piece, h1, h2⟩ := hrowmem
        exact ⟨piece, h1, h2.symm⟩
      have hpiecefree : ∀ c ∈ piece, (c == ';') = false := by
        intro c hc
        exact mem_splitOnP_sepfree (fun x => x == ';') values piece
          ((List.dropLast_sublist (values.splitOn ';')).subset hpiece) c hc
      have hfieldfree : ∀ f : List Char, f ∈ row → ∀ c ∈ f, (c == ';') = false := by
        intro f hfmem c hc
        apply hpiecefree
        rw [hrowsplit] at hfmem
        exact mem_of_mem_splitOnP (fun x => x == ',') piece f hfmem c hc
      have h0free : ∀ c ∈ b0, (c == ';') = false :=
        hfieldfree b0 (List.getElem?_mem (pyIdx_ok hb0))
      have h1free : ∀ c ∈ b1, (c == ';') = false :=
        hfieldfree b1 (List.getElem?_mem (pyIdx_ok hb1))
      have hfields : fields = [b0, b1] := by
        cases fields with
        | nil => simp at hlen2
        | cons x rest =>
            cases rest with
            | nil => simp at hlen2
            | cons y rest2 =>
                cases rest2 with
                | nil =>
                    simp only [List.getElem?_cons_zero, Option.some_inj] at hg0
                    have hg1b : y = b1 := by
                      simpa using hg1
                    rw [hg0, hg1b]
                | cons z r3 => simp at hlen2
      have hlform : l = (b0 ++ ';' :: b1) ++ [';', '!'] := by
        rw [← hl2, hfields]
        simp [List.intercalate, List.intersperse]
      rw [hlform]
      have htake : ((b0 ++ ';' :: b1) ++ [';', '!']).take
          (((b0 ++ ';' :: b1) ++ [';', '!']).length - 2) = b0 ++ ';' :: b1 := by
        have hlen3 : ((b0 ++ ';' :: b1) ++ [';', '!']).length - 2
            = (b0 ++ ';' :: b1).length := by
          simp
          omega
        rw [hlen3, List.take_left]
      rw [htake]
      show (List.splitOnP (fun x => x == ';') (b0 ++ ';' :: b1)).length = 2
      rw [splitOnP_append_sepfree _ b0 ';' b1 h0free (by decide),
        splitOnP_sepfree_eq _ b1 h1free]
      rfl

/-- Witness for the amended C8: the scenario applied to a concrete
two-row block. -/
theorem gef_scenario_two_columns_witness :
    res_scenario.column = 2
    ∧ ∀ l ∈ res_scenario.lines,
        ((l.take (l.length - 2)).splitOn ';').length = 2 :=
  gef_scenario_two_columns pf_zero values_scenario res_scenario (by decide)

theorem buildMappingAux_elev_none (params : List (String × Bool))
    (h : ∀ p ∈ params, ¬(p.1 = "depth" ∧ p.2 = true)) :
    ∀ (i : Nat) (m : ChannelMapping),
      (buildMappingAux params i m).elevation = m.elevation := by
  induction params with
  | nil => intro i m; rfl
  | cons q rest ih =>
      intro i m
      obtain ⟨tag, v⟩ := q
      have hq := h (tag, v) (List.mem_cons_self _ _)
      unfold buildMappingAux
      rw [ih (fun p hp => h p (List.mem_cons_of_mem _ hp))]
      unfold stepMapping
      simp only
      rw [if_neg ?_]
      intro hc
      exact hq ⟨hc.1, by simpa using hc.2⟩

/-- C10 counterexample: a document whose parameters contain no flagged
`depth` entry but whose numeric block is empty converts without raising
any error, so the claimed unconditional failure does not occur. -/
theorem missing_depth_cex :
    (xml_no_depth_empty.parameters.all
      (fun p => !(p.1 == "depth" && p.2))) = true
    ∧ (convert_xml_dict_to_cpt_dict pf_zero xml_no_depth_empty).isOk = true := by
  refine ⟨?_, ?_⟩ <;> decide

/-- C10 (amended): with no `True`-flagged `depth` parameter — so neither
`elevation` nor `corrected_depth` gets a column — and at least one data
row, conversion fails with the user-facing error `Missing "elevation" in
XML data`, before any sample is appended (the error is produced at the
sort, which precedes the measurement loop). -/
theorem missing_depth_raises (pyFloat : List Char → Rat) (x : XmlCpt)
    (h : ∀ p ∈ x.parameters, ¬(p.1 = "depth" ∧ p.2 = true))
    (hrows : xmlDataRows x ≠ []) :
    convert_xml_dict_to_cpt_dict pyFloat x
      = .error (.userException "Missing \"elevation\" in XML data") := by
  have he : (xmlMapping x).elevation = none := by
    unfold xmlMapping
    rw [buildMappingAux_elev_none x.parameters h]
  unfold convert_xml_dict_to_cpt_dict
  cases hr : xmlDataRows x with
  | nil => exact absurd hr hrows
  | cons r rest => rw [he]

/-- Witness for the amended C10: the document with one data row and no
`depth` parameter raises the error. -/
theorem missing_depth_raises_witness :
    convert_xml_dict_to_cpt_dict pf_zero xml_no_depth_one_row
      = .error (.userException "Missing \"elevation\" in XML data") :=
  missing_depth_raises pf_zero xml_no_depth_one_row
    (by decide) (by decide)

theorem channel_from_exceptMap (pf : List Char → Rat) (eo : Int) (key : String)
    (col : Nat) (sd : List (List (List Char))) (L : List (Option Rat))
    (j : Nat) (row : List (List Char)) (fld : List Char)
    (hL : exceptMap (channelValue pf eo key col) sd = .ok L)
    (hj : sd[j]? = some row) (hfld : row[col]? = some fld) :
    L[j]? = some (if pf fld = -999999 then none
      else some (transformValue eo key (pf fld))) := by
  obtain ⟨b, hcv, hget⟩ := exceptMap_ok_get _ _ _ hL j row hj
  have hpy : pyIdx row col = .ok fld := by
    unfold pyIdx
    rw [hfld]
  unfold channelValue at hcv
  rw [hpy] at hcv
  replace hcv : (if pf fld = -999999 then (Except.ok none : Except PyError (Option Rat))
      else .ok (some (transformValue eo key (pf fld)))) = .ok b := hcv
  by_cases hc : pf fld = -999999
  · rw [if_pos hc] at hcv
    injection hcv with hb
    rw [hget, if_pos hc, ← hb]
  · rw [if_neg hc] at hcv
    injection hcv with hb
    rw [hget, if_neg hc, ← hb]

theorem buildCptRest_channel (pf : List Char → Rat) (x : XmlCpt)
    (sd : List (List (List Char))) (hdrs : CptHeaders) (md : MeasurementData)
    (key : String) (col j : Nat) (row : List (List Char)) (fld : List Char)
    (hok : buildCptRest pf x sd = .ok (hdrs, md))
    (hfind : (xmlMapping x).find key = some col)
    (hj : sd[j]? = some row) (hfld : row[col]? = some fld) :
    (md.channel key)[j]? = some
      (if pf fld = -999999 then none
       else some (transformValue (pyInt (pf x.offset * 1000)) key (pf fld))) := by
  have hsdne : sd ≠ [] := by
    intro hsd
    rw [hsd] at hj
    simp at hj
  unfold buildCptRest at hok
  split at hok
  · exact Except.noConfusion hok
  · rename_i rfL hRf
    split at hok
    · exact Except.noConfusion hok
    · rename_i fsL hfs
      split at hok
      · exact Except.noConfusion hok
      · rename_i qcL hqc
        split at hok
        · exact Except.noConfusion hok
        · rename_i elL hel
          split at hok
          · exact Except.noConfusion hok
          · rename_i cdL hcd
            split at hok
            · exact Except.noConfusion hok
            · rename_i rfL2 hrf2
              injection hok with hpair
              injection hpair with hh hmd
              subst hmd
              unfold ChannelMapping.find at hfind
              split at hfind
              · replace hRf : exceptMap (channelValue pf
                    (pyInt (pf x.offset * 1000)) "Rf" col) sd = .ok rfL := by
                  rw [hfind] at hRf
                  exact hRf
                have hrfne : rfL ≠ [] := by
                  intro hnil
                  have hl0 := exceptMap_ok_length _ _ _ hRf
                  rw [hnil] at hl0
                  exact hsdne (List.eq_nil_of_length_eq_zero hl0.symm)
                rw [if_neg hrfne] at hrf2
                injection hrf2 with hr2
                show rfL2[j]? = _
                rw [← hr2]
                exact channel_from_exceptMap pf _ "Rf" col sd rfL j row fld
                  hRf hj hfld
              · replace hfs : exceptMap (channelValue pf
                    (pyInt (pf x.offset * 1000)) "fs" col) sd = .ok fsL := by
                  rw [hfind] at hfs
                  exact hfs
                show fsL[j]? = _
                exact channel_from_exceptMap pf _ "fs" col sd fsL j row fld
                  hfs hj hfld
              · replace hqc : exceptMap (channelValue pf
                    (pyInt (pf x.offset * 1000)) "qc" col) sd = .ok qcL := by
                  rw [hfind] at hqc
                  exact hqc
                show qcL[j]? = _
                exact channel_from_exceptMap pf _ "qc" col sd qcL j row fld
                  hqc hj hfld
              · replace hel : exceptMap (channelValue pf
                    (pyInt (pf x.offset * 1000)) "elevation" col) sd = .ok elL := by
                  rw [hfind] at hel
                  exact hel
                show elL[j]? = _
                exact channel_from_exceptMap pf _ "elevation" col sd elL j row fld
                  hel hj hfld
              · replace hcd : exceptMap (channelValue pf
                    (pyInt (pf x.offset * 1000)) "corrected_depth" col) sd
                    = .ok cdL := by
                  rw [hfind] at hcd
                  exact hcd
                show cdL[j]? = _
                exact channel_from_exceptMap pf _ "corrected_depth" col sd cdL
                  j row fld hcd hj hfld
              · exact Option.noConfusion hfind

/-- C1: the missing-sample sentinel is translated at both boundaries.
GEF→XML: a `None` sample of a populated channel (`qc`, `inclination`,
`fs`, `Rf` at matrix rows 3, 15, 18, 24) renders as the literal field
`-999999` in the numeric block.  XML→CPT: a mapped channel stores, for
row `j`, `None` exactly when the row's field parses to `-999999`, and the
scaled float value otherwise — the sentinel value itself is never
stored. -/
theorem missing_sample_sentinel :
    (∀ (fmt : Rat → String) (h : GefHeadersUsed) (md : GefMeasurementData)
       (n j : Nat) (key : String) (col : Nat) (l : List (Option Rat)),
       (key, col) ∈ [("qc", 3), ("inclination", 15), ("fs", 18), ("Rf", 24)] →
       List.lookup key md = some l → l[j]? = some none →
       (renderRow fmt (matrixRow h md n j))[col]? = some "-999999")
    ∧ (∀ (pf : List Char → Rat) (x : XmlCpt) (hdrs : CptHeaders)
        (md : MeasurementData) (key : String) (col j : Nat)
        (row : List (List Char)) (fld : List Char),
        convert_xml_dict_to_cpt_dict pf x = .ok (hdrs, md) →
        (xmlMapping x).find key = some col →
        (xmlSortedRows pf x)[j]? = some row → row[col]? = some fld →
        (md.channel key)[j]? = some
          (if pf fld = -999999 then none
           else some (transformValue (pyInt (pf x.offset * 1000)) key
             (pf fld)))) := by
  constructor
  · intro fmt h md n j key col l hmem hlook hj
    simp at hmem
    rcases hmem with ⟨h1, h2⟩ | ⟨h1, h2⟩ | ⟨h1, h2⟩ | ⟨h1, h2⟩ <;>
        subst h1 <;> subst h2 <;>
      · unfold renderRow matrixRow
        rw [List.getElem?_map, List.getElem?_map,
          List.getElem?_range (by norm_num)]
        simp [matrixCell, chanCell, renderCell, rf_scale, hlook, hj]
  · intro pf x hdrs md key col j row fld hconv hfind hj hfld
    unfold convert_xml_dict_to_cpt_dict at hconv
    split at hconv
    · have hrows0 : xmlDataRows x = [] := by assumption
      have hempty : xmlSortedRows pf x = [] := by
        unfold xmlSortedRows
        cases helev2 : (xmlMapping x).elevation with
        | none => rfl
        | some c =>
            show pySortedByKey (fun row => pf (row.getD c [])) (xmlDataRows x)
              = []
            rw [hrows0]
            rfl
      rw [hempty] at hj
      simp at hj
    · exact Except.noConfusion hconv
    · split at hconv
      · exact Except.noConfusion hconv
      · exact buildCptRest_channel pf x (xmlSortedRows pf x) hdrs md key col
          j row fld hconv hfind hj hfld

/-- Witness for C1: a record with `qc = [None]` renders field 3 of its
only data row as `-999999`, and the parsed sentinel document stores the
sentinel-valued cone-resistance field as the absence value. -/
theorem missing_sample_sentinel_witness :
    (renderRow fmt_const (matrixRow ⟨0, 0⟩ md_missing_qc 1 0))[3]?
      = some "-999999"
    ∧ (md_sentinel_row.channel "qc")[0]? = some
        (if pf_sentinel "-999999".toList = -999999 then none
         else some (transformValue
           (pyInt (pf_sentinel xml_sentinel_row.offset * 1000)) "qc"
           (pf_sentinel "-999999".toList))) :=
  ⟨missing_sample_sentinel.1 fmt_const ⟨0, 0⟩ md_missing_qc 1 0 "qc" 3 [none]
      (by decide) (by decide) (by decide),
   missing_sample_sentinel.2 pf_sentinel xml_sentinel_row hdrs_sentinel_row
      md_sentinel_row "qc" 1 0 [['0'], "-999999".toList] "-999999".toList
      rfl (by decide) rfl (by decide)⟩

theorem odInsert_not_mem : ∀ (acc : TChildren) (k : String) (v : TNode),
    k ∉ tcKeys acc → odInsert acc k v = tcAppend acc (.cons k v .nil)
  | .nil, k, v, _ => rfl
  | .cons k0 t0 rest, k, v, h => by
      have hk0 : k0 ≠ k := by
        intro he
        exact h (by rw [he]; exact List.mem_cons_self _ _)
      unfold odInsert tcAppend
      rw [if_neg hk0,
        odInsert_not_mem rest k v (fun hm => h (List.mem_cons_of_mem _ hm))]

theorem tcAppend_nil : ∀ (a : TChildren), tcAppend a .nil = a
  | .nil => rfl
  | .cons k t rest => by
      simp only [tcAppend]
      rw [tcAppend_nil rest]

theorem tcAppend_assoc : ∀ (a b c : TChildren),
    tcAppend (tcAppend a b) c = tcAppend a (tcAppend b c)
  | .nil, b, c => rfl
  | .cons k t rest, b, c => by
      simp only [tcAppend]
      rw [tcAppend_assoc rest b c]

theorem tcKeys_append : ∀ (a b : TChildren),
    tcKeys (tcAppend a b) = tcKeys a ++ tcKeys b
  | .nil, b => rfl
  | .cons k t rest, b => by
      simp only [tcAppend, tcKeys]
      rw [tcKeys_append rest b]
      simp

theorem tShapeList_append : ∀ (a b : TChildren),
    tShapeList (tcAppend a b) = tfAppend (tShapeList a) (tShapeList b)
  | .nil, b => rfl
  | .cons k t rest, b => by
      simp only [tcAppend, tShapeList, tfAppend]
      rw [tShapeList_append rest b]

theorem parseChildren_eq : ∀ (cs : XmlList)
    (ns : List (Option String × String)) (acc : TChildren),
    nodupB (xmlTagsOf cs) = true →
    (∀ t ∈ xmlTagsOf cs, t ∉ tcKeys acc) →
    parseChildren cs ns acc = tcAppend acc (mapParse cs ns)
  | .nil, ns, acc, _, _ => by
      simp only [parseChildren, mapParse]
      rw [tcAppend_nil]
  | .cons c rest, ns, acc, hnodup, hdisj => by
      simp only [parseChildren, mapParse]
      have hctag : c.tag ∉ tcKeys acc := by
        refine hdisj c.tag ?_
        simp only [xmlTagsOf]
        exact List.mem_cons_self _ _
      rw [odInsert_not_mem acc c.tag (parse_xml_template c ns) hctag]
      simp only [xmlTagsOf, nodupB, Bool.and_eq_true] at hnodup
      have hcrest : c.tag ∉ xmlTagsOf rest := by
        intro hm
        have h1 : (xmlTagsOf rest).contains c.tag = true := List.elem_iff.mpr hm
        have h2 := hnodup.1
        rw [Bool.not_eq_true'] at h2
        rw [h2] at h1
        exact Bool.false_ne_true h1
      have hdisj2 : ∀ t ∈ xmlTagsOf rest,
          t ∉ tcKeys (tcAppend acc
            (.cons c.tag (parse_xml_template c ns) .nil)) := by
        intro t ht hmem
        rw [tcKeys_append] at hmem
        rcases List.mem_append.mp hmem with h1 | h1
        · refine hdisj t ?_ h1
          simp only [xmlTagsOf]
          exact List.mem_cons_of_mem _ ht
        · have ht2 : t = c.tag := by
            simp only [tcKeys] at h1
            simpa using h1
          exact hcrest (ht2 ▸ ht)
      rw [parseChildren_eq rest ns _ hnodup.2 hdisj2, tcAppend_assoc]
      rfl

mutual

theorem parse_shape : ∀ (x : Xml) (p : Option (List (Option String × String))),
    distinctTags x = true → tShape x.tag (parse_xml_template x p) = xmlShape x
  | .mk tag attrs nsmap text .nil, p, _ => by
      simp only [parse_xml_template, Xml.tag, tShape, xmlShape, xmlShapeList,
        tShapeList]
  | .mk tag attrs nsmap text (.cons c rest), p, hd => by
      simp only [distinctTags, Bool.and_eq_true] at hd
      simp only [parse_xml_template, Xml.tag, tShape, xmlShape]
      rw [parseChildren_eq (.cons c rest) _ .nil hd.1
        (fun t _ hmem => by simp [tcKeys] at hmem)]
      simp only [tcAppend]
      rw [mapParse_shape (.cons c rest) _ hd.2]

theorem mapParse_shape : ∀ (cs : XmlList)
    (ns : List (Option String × String)),
    distinctTagsList cs = true → tShapeList (mapParse cs ns) = xmlShapeList cs
  | .nil, ns, _ => rfl
  | .cons c rest, ns, hd => by
      simp only [distinctTagsList, Bool.and_eq_true] at hd
      simp only [mapParse, tShapeList, xmlShapeList]
      rw [parse_shape c _ hd.1, mapParse_shape rest ns hd.2]

end

theorem setRootNs_shape : ∀ (tag : String) (t : TNode),
    tShape tag (setRootNs t) = tShape tag t
  | _, .leaf _ _ _ _ => rfl
  | _, .node _ _ _ _ => rfl

mutual

theorem build_shape : ∀ (tag : String) (t : TNode),
    xmlShape (build_xml_node tag t) = tShape tag t
  | tag, .leaf _ _ _ _ => rfl
  | tag, .node attrs d ns cs => by
      simp only [build_xml_node, xmlShape, tShape]
      rw [build_shape_children cs]

theorem build_shape_children : ∀ (cs : TChildren),
    xmlShapeList (buildChildren cs) = tShapeList cs
  | .nil => rfl
  | .cons tag t rest => by
      simp only [buildChildren, xmlShapeList, tShapeList]
      rw [build_shape tag t, build_shape_children rest]

end

theorem tShape_mk : ∀ (k : String) (t : TNode), ∃ f, tShape k t = TagTree.mk k f
  | k, .leaf _ _ _ _ => ⟨.nil, rfl⟩
  | k, .node _ _ _ cs => ⟨tShapeList cs, rfl⟩

theorem tcLookup_of_shapeEq : ∀ (orig acc : TChildren),
    tShapeList acc = tShapeList orig →
    ∀ (k : String) (o : TNode), tcLookup orig k = some o →
      ∃ a, tcLookup acc k = some a ∧ tShape k a = tShape k o
  | .nil, _, _, k, o, hlk => Option.noConfusion hlk
  | .cons k0 t0 rest, .nil, hsh, k, o, hlk => by
      simp only [tShapeList] at hsh
      exact TagForest.noConfusion hsh
  | .cons k0 t0 rest, .cons k0' t0' rest', hsh, k, o, hlk => by
      simp only [tShapeList] at hsh
      injection hsh with hs1 hs2
      have hk0 : k0' = k0 := by
        obtain ⟨f1, hf1⟩ := tShape_mk k0' t0'
        obtain ⟨f2, hf2⟩ := tShape_mk k0 t0
        rw [hf1, hf2, TagTree.mk.injEq] at hs1
        exact hs1.1
      subst hk0
      simp only [tcLookup] at hlk ⊢
      by_cases hk : k0' = k
      · rw [if_pos hk] at hlk
        injection hlk with ho
        subst ho
        rw [if_pos hk]
        refine ⟨t0', rfl, ?_⟩
        rw [← hk]
        exact hs1
      · rw [if_neg hk] at hlk
        rw [if_neg hk]
        exact tcLookup_of_shapeEq rest rest' hs2 k o hlk

theorem tcUpdate_shape : ∀ (acc : TChildren) (k : String) (n a : TNode),
    tcLookup acc k = some a → tShape k n = tShape k a →
    tShapeList (tcUpdate acc k n) = tShapeList acc
  | .nil, k, n, a, hlk, _ => Option.noConfusion hlk
  | .cons k0 t0 rest, k, n, a, hlk, hsh => by
      simp only [tcLookup] at hlk
      simp only [tcUpdate]
      by_cases hk : k0 = k
      · rw [if_pos hk] at hlk
        injection hlk with ha
        rw [if_pos hk]
        simp only [tShapeList]
        subst hk
        rw [hsh, ha]
      · rw [if_neg hk] at hlk
        rw [if_neg hk]
        simp only [tShapeList]
        rw [tcUpdate_shape rest k n a hlk hsh]

mutual

theorem reformatOne_shape : ∀ (v : DataVal) (o a : TNode) (tag : String),
    subschemaVal v o = true → tShape tag a = tShape tag o →
    ∃ n, reformatOne v o a = some n ∧ tShape tag n = tShape tag a
  | .scalar s, .leaf _ _ _ _, a, tag, _, hsh => by
      refine ⟨nodeWithValueScalar a s, rfl, ?_⟩
      have h1 : tShape tag (nodeWithValueScalar a s) = TagTree.mk tag .nil := by
        cases a <;> rfl
      rw [h1, hsh]
      rfl
  | .scalar _, .node _ _ _ _, _, _, hsub, _ => by
      simp [subschemaVal] at hsub
  | .dict _, .leaf _ _ _ _, _, _, hsub, _ => by
      simp [subschemaVal] at hsub
  | .dict es, .node a1 d1 n1 cs, a, tag, hsub, hsh => by
      have hsub2 : subschemaEntries es cs = true := hsub
      obtain ⟨sub, hres, hshape⟩ := reformatChildren_shape es cs cs hsub2 rfl
      refine ⟨nodeWithValueChildren a sub, ?_, ?_⟩
      · simp only [reformatOne]
        rw [hres]
        rfl
      · have h1 : tShape tag (nodeWithValueChildren a sub)
            = TagTree.mk tag (tShapeList sub) := by
          cases a <;> rfl
        rw [h1, hshape, hsh]
        rfl

theorem reformatChildren_shape : ∀ (es : DataEntries) (orig acc : TChildren),
    subschemaEntries es orig = true → tShapeList acc = tShapeList orig →
    ∃ out, reformatChildren es orig acc = some out
      ∧ tShapeList out = tShapeList acc
  | .nil, _, acc, _, _ => ⟨acc, rfl, rfl⟩
  | .cons tag v rest, orig, acc, hsub, hshape => by
      simp only [subschemaEntries, Bool.and_eq_true] at hsub
      obtain ⟨h1, h2⟩ := hsub
      cases hfk : findTemplateKey orig tag with
      | none =>
          rw [hfk] at h1
          exact absurd h1 (by simp)
      | some ktag =>
          rw [hfk] at h1
          replace h1 : (match tcLookup orig ktag with
            | some t => subschemaVal v t
            | none => false) = true := h1
          cases hlk : tcLookup orig ktag with
          | none =>
              rw [hlk] at h1
              exact absurd h1 (by simp)
          | some o =>
              rw [hlk] at h1
              replace h1 : subschemaVal v o = true := h1
              obtain ⟨a2, hlka, hsha⟩ :=
                tcLookup_of_shapeEq orig acc hshape ktag o hlk
              obtain ⟨n, hrn, hshn⟩ := reformatOne_shape v o a2 ktag h1 hsha
              have hupd : tShapeList (tcUpdate acc ktag n) = tShapeList acc :=
                tcUpdate_shape acc ktag n a2 hlka hshn
              obtain ⟨out, hout, hshout⟩ := reformatChildren_shape rest orig
                (tcUpdate acc ktag n) h2 (hupd.trans hshape)
              refine ⟨out, ?_, hshout.trans hupd⟩
              have hstep : reformatChildren (.cons tag v rest) orig acc =
                  (match tcLookup orig ktag, tcLookup acc ktag with
                   | some origNode, some accNode =>
                       (match reformatOne v origNode accNode with
                        | some n2 =>
                            reformatChildren rest orig (tcUpdate acc ktag n2)
                        | none => none)
                   | _, _ => none) := by
                simp only [reformatChildren]
                rw [hfk]
              have hstep2 : reformatChildren (.cons tag v rest) orig acc =
                  (match reformatOne v o a2 with
                   | some n2 =>
                       reformatChildren rest orig (tcUpdate acc ktag n2)
                   | none => none) := by
                rw [hstep, hlk, hlka]
              have hstep3 : reformatChildren (.cons tag v rest) orig acc =
                  reformatChildren rest orig (tcUpdate acc ktag n) := by
                rw [hstep2, hrn]
              rw [hstep3]
              exact hout

end

/-- C5: template order preservation.  For a skeleton `S` with pairwise
distinct sibling tags and any data object that is a subset of the loaded
template's schema, filling the template and building the XML yields a
document whose child-element order (its tag shape) at every level equals
`S`'s document order. -/
theorem template_order_preservation (S : Xml) (es : DataEntries)
    (cs : TChildren)
    (hdistinct : distinctTags S = true)
    (hroot : rootChildren (template_of S).2 = some cs)
    (hsub : subschemaEntries es cs = true) :
    (reformat_using_template (.dict es) (template_of S)).map
      (fun f => xmlShape (build_xml f)) = some (xmlShape S) := by
  have hparse : tShape S.tag (parse_xml_template S none) = xmlShape S :=
    parse_shape S none hdistinct
  unfold template_of at hroot ⊢
  cases hT : parse_xml_template S none with
  | leaf a1 d1 n1 t1 =>
      rw [hT] at hroot
      exact Option.noConfusion hroot
  | node a1 d1 n1 cs0 =>
      rw [hT] at hroot
      replace hroot : some cs0 = some cs := hroot
      injection hroot with hcs
      rw [← hcs] at hsub
      rw [hT] at hparse
      obtain ⟨sub, hres, hshape⟩ := reformatChildren_shape es cs0 cs0 hsub rfl
      have href : reformat_using_template (.dict es)
          (S.tag, setRootNs (.node a1 d1 n1 cs0)) =
          (reformatChildren es cs0 cs0).map
            (fun sub2 => (S.tag, TNode.node a1 d1
              (nsOdInsert n1 none broDefaultNs) sub2)) := rfl
      rw [href, hres]
      simp only [Option.map_map, Option.map_some]
      show some (xmlShape (build_xml_node S.tag
        (.node a1 d1 (nsOdInsert n1 none broDefaultNs) sub))) = _
      rw [build_shape]
      have hshow : tShape S.tag (TNode.node a1 d1
          (nsOdInsert n1 none broDefaultNs) sub)
          = TagTree.mk S.tag (tShapeList sub) := rfl
      rw [hshow, hshape]
      have hfin : TagTree.mk S.tag (tShapeList cs0) = xmlShape S := by
        rw [← hparse]
        rfl
      rw [hfin]

/-- Witness for C5: a small skeleton with two children (one nested) and a
data object filling only the first field keeps the skeleton's child
order. -/
theorem template_order_preservation_witness :
    distinctTags skeleton_small = true
    ∧ rootChildren (template_of skeleton_small).2 = some skeleton_small_children
    ∧ subschemaEntries data_small skeleton_small_children = true
    ∧ (reformat_using_template (.dict data_small)
        (template_of skeleton_small)).map
        (fun f => xmlShape (build_xml f)) = some (xmlShape skeleton_small) :=
  ⟨rfl, rfl, rfl,
   template_order_preservation skeleton_small data_small
     skeleton_small_children rfl rfl rfl⟩
